import Mathlib

/-!
# DecompilerContextMenu

A shallow embedding of `src/menus/DecompilerContextMenu.cpp`: the right-click
menu of the decompiler pane.  The widget is a record of its member variables;
every slot is a function on that record.  Slots that call into the analysis
core or open a dialog additionally return the list of those calls, in order.

Conventions of the embedding

* `tr` is the identity (no translation catalogue installed) and
  `QString::arg` with one or two arguments is string concatenation around the
  place markers.
* Pointers to heap objects created while the menu lives (`new QAction`,
  `createShowInMenu`) are indices into the list of objects created so far;
  `deleteLater` appends the pointer to a list of objects scheduled for
  deletion.
* Read-only questions to the core (`cmdRawAt("CC.")`, `functionAt`,
  `r_flag_get_i`, `getVariables`, ...) are answered by a `Core` record.
-/

/-- Addresses (`RVA` is an unsigned 64-bit integer). -/
abbrev RVA := Nat

/-- Modelled from the spec: the sentinel "invalid address" value meaning
"not applicable"; the constant is declared outside this file. -/
def RVA_MAX : RVA := 2 ^ 64 - 1

/-- Modelled from the spec: the same sentinel under its second name. -/
def RVA_INVALID : RVA := RVA_MAX

/-- Translation of user-visible text; the identity when no catalogue is loaded. -/
def tr (s : String) : String := s

/-- Modelled from the spec: the variants of the annotation record
(`FunctionName`, `GlobalVariable`, `ConstantVariable`, `LocalVariable`,
`Other`); the type is declared by the analysis core. -/
inductive RCodeMetaItemType where
  | R_CODEMETA_TYPE_FUNCTION_NAME
  | R_CODEMETA_TYPE_GLOBAL_VARIABLE
  | R_CODEMETA_TYPE_CONSTANT_VARIABLE
  | R_CODEMETA_TYPE_LOCAL_VARIABLE
  | R_CODEMETA_TYPE_OTHER
  deriving DecidableEq, Repr

open RCodeMetaItemType

/-- The members `reference.name` and `reference.offset` of an annotation. -/
structure RCodeMetaReference where
  name : String
  offset : RVA
  deriving DecidableEq, Repr

/-- The member `variable.name` of an annotation. -/
structure RCodeMetaVariable where
  name : String
  deriving DecidableEq, Repr

/-- The annotation record the menu points to (`RCodeMetaItem`). -/
structure RCodeMetaItem where
  type : RCodeMetaItemType
  reference : RCodeMetaReference
  /-- The member `variable` (a reserved word here). -/
  variable_ : RCodeMetaVariable
  deriving DecidableEq, Repr

/-- Modelled from the spec: "the annotation is a reference (function name or
variable reference to an address)"; the helper belongs to the analysis core.
The three types are the ones `updateTargetMenuActions` handles under
`isReference()`. -/
def r_codemeta_item_is_reference (mi : RCodeMetaItem) : Bool :=
  mi.type == R_CODEMETA_TYPE_GLOBAL_VARIABLE
    || mi.type == R_CODEMETA_TYPE_CONSTANT_VARIABLE
    || mi.type == R_CODEMETA_TYPE_FUNCTION_NAME

/-- Modelled from the spec: "the annotation is a local variable"; the helper
belongs to the analysis core. -/
def r_codemeta_item_is_variable (mi : RCodeMetaItem) : Bool :=
  mi.type == R_CODEMETA_TYPE_LOCAL_VARIABLE

/-- The second argument of `createShowInMenu`, when given. -/
inductive AddressTypeHint where
  | Function
  | Data
  deriving DecidableEq, Repr

/-- A menu returned by `mainWindow->createShowInMenu(this, address [, hint])`. -/
structure ShowInMenu where
  address : RVA
  hint : Option AddressTypeHint
  deriving DecidableEq, Repr

/-- What `QAction::menu()` can point to: the member `breakpointsInLineMenu`
or a menu created by `createShowInMenu`. -/
inductive MenuPtr where
  | breakpointsInLineMenu
  | created (ptr : Nat)
  deriving DecidableEq, Repr

/-- The properties of a `QAction` this file reads or writes. -/
structure QAction where
  text : String
  visible : Bool
  enabled : Bool
  menu : Option MenuPtr
  toolTip : String
  deriving DecidableEq, Repr

namespace QAction

/-- A `QAction` as its constructor leaves it: visible, enabled, no menu. -/
def new (text : String) : QAction :=
  { text := text, visible := true, enabled := true, menu := none, toolTip := "" }

def setText (a : QAction) (t : String) : QAction := { a with text := t }

def setVisible (a : QAction) (v : Bool) : QAction := { a with visible := v }

def setEnabled (a : QAction) (e : Bool) : QAction := { a with enabled := e }

def setDisabled (a : QAction) (d : Bool) : QAction := { a with enabled := !d }

def setMenu (a : QAction) (m : Option MenuPtr) : QAction := { a with menu := m }

def setToolTip (a : QAction) (t : String) : QAction := { a with toolTip := t }

end QAction

/-- The members of the widget that are actions, separators or sub-menus. -/
inductive Member where
  | actionCopy
  | actionCopyInstructionAddress
  | actionCopyReferenceAddress
  | firstSeparator
  | actionShowInSubmenu
  | copySeparator
  | actionAddComment
  | actionDeleteComment
  | actionRenameThingHere
  | actionDeleteName
  | actionXRefs
  | actionEditFunctionVariables
  | lastSeparator
  | breakpointMenu
  | debugMenu
  | actionEditAnnotationItem
  deriving DecidableEq, Repr

/-- An entry of the widget's action list (`QWidget::actions()`): a member of
the class or an action created with `new QAction`. -/
inductive ActionPtr where
  | fixed (m : Member)
  | created (ptr : Nat)
  deriving DecidableEq, Repr

/-- `QWidget::removeAction`: every occurrence leaves the list. -/
def removeAction (l : List ActionPtr) (a : ActionPtr) : List ActionPtr :=
  l.filter (fun x => x != a)

/-- `QWidget::insertAction(before, action)`: an action already in the list is
taken out first; it then goes in front of `before`, or to the end when
`before` is not in the list. -/
def insertAction (l : List ActionPtr) (before a : ActionPtr) : List ActionPtr :=
  let l := l.erase a
  let pos := l.indexOf before
  l.take pos ++ a :: l.drop pos

/-- `QWidget::insertActions(before, actions)`. -/
def insertActions (l : List ActionPtr) (before : ActionPtr) (as : List ActionPtr) :
    List ActionPtr :=
  as.foldl (fun acc a => insertAction acc before a) l

/-- An action created with `new QAction(name, this)` and its `setMenu`. -/
structure CreatedAction where
  text : String
  menu : Option MenuPtr
  deriving DecidableEq, Repr

/-- The answers of the analysis core and of the address formatter that the
slots read. -/
structure Core where
  /-- `RAddressString(addr)`. -/
  RAddressString : RVA → String
  /-- `Core()->cmdRawAt("CC.", addr)`: the comment at an address. -/
  cmdRawAtCC : RVA → String
  /-- `Core()->currentlyDebugging`. -/
  currentlyDebugging : Bool
  /-- `Core()->getRegisterName("PC")`. -/
  getRegisterNamePC : String
  /-- `r_flag_get_i(core->flags, addr)`: the name of the flag, if there is one. -/
  r_flag_get_i : RVA → Option String
  /-- `Core()->functionAt(addr) != NULL`. -/
  functionAt : RVA → Bool
  /-- `Core()->getVariables(addr)`: the names of the variables. -/
  getVariables : RVA → List String

/-- The widget: its member variables, its action list and the heap objects it
created. -/
structure DecompilerContextMenu where
  curHighlightedWord : String
  offset : RVA
  decompiledFunctionAddress : RVA
  firstOffsetInLine : RVA
  isTogglingBreakpoints : Bool
  availableBreakpoints : List RVA
  annotationHere : Option RCodeMetaItem
  actionCopy : QAction
  actionCopyInstructionAddress : QAction
  actionCopyReferenceAddress : QAction
  actionEditAnnotationItem : QAction
  actionShowInSubmenu : QAction
  actionAddComment : QAction
  actionDeleteComment : QAction
  actionRenameThingHere : QAction
  actionDeleteName : QAction
  actionEditFunctionVariables : QAction
  actionXRefs : QAction
  actionToggleBreakpoint : QAction
  actionAdvancedBreakpoint : QAction
  actionContinueUntil : QAction
  actionSetPC : QAction
  /-- The separator in front of which the "show target in" entry goes. -/
  copySeparator : QAction
  /-- `breakpointMenu->menuAction()`. -/
  breakpointMenu : QAction
  /-- `debugMenu->menuAction()`. -/
  debugMenu : QAction
  /-- The entries of `breakpointsInLineMenu`: label and the address whose
  breakpoint the entry edits. -/
  breakpointsInLineMenu : List (String × RVA)
  /-- Pointers to the "show target in" actions of the current cycle. -/
  showTargetMenuActions : List Nat
  /-- `QWidget::actions()` of the menu itself. -/
  actions : List ActionPtr
  /-- `QMenu::toolTipsVisible`. -/
  toolTipsVisible : Bool
  /-- Every action created with `new QAction`; a pointer is an index here. -/
  heapActions : List CreatedAction
  /-- Every menu created by `createShowInMenu`; a pointer is an index here. -/
  heapMenus : List ShowInMenu
  /-- Actions on which `deleteLater()` was called, latest last. -/
  deleteLaterActions : List Nat
  /-- Menus on which `deleteLater()` was called, latest last. -/
  deleteLaterMenus : List MenuPtr

namespace DecompilerContextMenu

/-- The constructor.  `firstOffsetInLine` is not in the initialiser list, so
its first value is whatever the caller finds there. -/
def new (firstOffsetInLine : RVA) : DecompilerContextMenu :=
  { curHighlightedWord := ""
    offset := 0
    decompiledFunctionAddress := RVA_INVALID
    firstOffsetInLine := firstOffsetInLine
    isTogglingBreakpoints := false
    availableBreakpoints := []
    annotationHere := none
    actionCopy := QAction.new (tr "Copy")
    actionCopyInstructionAddress := QAction.new (tr "Copy address (<address>)")
    actionCopyReferenceAddress := QAction.new (tr "Copy address of [flag] (<address>)")
    actionEditAnnotationItem := QAction.new (tr "Edit annotation")
    actionShowInSubmenu := QAction.new (tr "Show in")
    actionAddComment := QAction.new (tr "Add Comment")
    actionDeleteComment := QAction.new (tr "Delete comment")
    actionRenameThingHere :=
      (QAction.new (tr "Rename function at cursor")).setToolTip
        (tr ("Can't rename this variable.<br>"
          ++ "Only local variables defined in disassembly can be renamed."))
    actionDeleteName := (QAction.new (tr "Delete <name>")).setVisible false
    actionEditFunctionVariables :=
      (QAction.new (tr "Edit variable <name of variable>")).setToolTip
        (tr ("Can't edit this variable.<br>"
          ++ "Only local variables defined in disassembly can be edited."))
    actionXRefs := QAction.new (tr "Show X-Refs")
    actionToggleBreakpoint := QAction.new (tr "Add/remove breakpoint")
    actionAdvancedBreakpoint := QAction.new (tr "Advanced breakpoint")
    actionContinueUntil := QAction.new (tr "Continue until line")
    actionSetPC := QAction.new (tr "Set PC")
    copySeparator := QAction.new ""
    breakpointMenu := QAction.new (tr "Breakpoint")
    debugMenu := QAction.new (tr "Debug")
    breakpointsInLineMenu := []
    showTargetMenuActions := []
    actions :=
      [ .fixed .actionCopy, .fixed .actionCopyInstructionAddress,
        .fixed .actionCopyReferenceAddress, .fixed .firstSeparator,
        .fixed .actionShowInSubmenu, .fixed .copySeparator,
        .fixed .actionAddComment, .fixed .actionDeleteComment,
        .fixed .actionRenameThingHere, .fixed .actionDeleteName,
        .fixed .actionXRefs, .fixed .actionEditFunctionVariables,
        .fixed .lastSeparator, .fixed .breakpointMenu, .fixed .debugMenu,
        .fixed .actionEditAnnotationItem ]
    toolTipsVisible := false
    heapActions := []
    heapMenus := []
    deleteLaterActions := []
    deleteLaterMenus := [] }

def setAnnotationHere (m : DecompilerContextMenu) (item : Option RCodeMetaItem) :
    DecompilerContextMenu :=
  { m with annotationHere := item }

def setCurHighlightedWord (m : DecompilerContextMenu) (word : String) :
    DecompilerContextMenu :=
  { m with curHighlightedWord := word }

def setOffset (m : DecompilerContextMenu) (newOffset : RVA) : DecompilerContextMenu :=
  { m with offset := newOffset }

def setDecompiledFunctionAddress (m : DecompilerContextMenu) (functionAddr : RVA) :
    DecompilerContextMenu :=
  { m with decompiledFunctionAddress := functionAddr }

def setFirstOffsetInLine (m : DecompilerContextMenu) (firstOffset : RVA) :
    DecompilerContextMenu :=
  { m with firstOffsetInLine := firstOffset }

def getFirstOffsetInLine (m : DecompilerContextMenu) : RVA :=
  m.firstOffsetInLine

def setAvailableBreakpoints (m : DecompilerContextMenu) (offsetList : List RVA) :
    DecompilerContextMenu :=
  { m with availableBreakpoints := offsetList }

def setIsTogglingBreakpoints (m : DecompilerContextMenu) (isToggling : Bool) :
    DecompilerContextMenu :=
  { m with isTogglingBreakpoints := isToggling }

def getIsTogglingBreakpoints (m : DecompilerContextMenu) : Bool :=
  m.isTogglingBreakpoints

def setToolTipsVisible (m : DecompilerContextMenu) (v : Bool) : DecompilerContextMenu :=
  { m with toolTipsVisible := v }

/-- The per-line breakpoint menu is emptied and gets one entry per breakpoint
of the line. -/
def setupBreakpointsInLineMenu (core : Core) (m : DecompilerContextMenu) :
    DecompilerContextMenu :=
  let m := { m with breakpointsInLineMenu := [] }
  m.availableBreakpoints.foldl
    (fun m curOffset =>
      { m with
        breakpointsInLineMenu :=
          m.breakpointsInLineMenu ++ [(core.RAddressString curOffset, curOffset)] })
    m

def isReference (m : DecompilerContextMenu) : Bool :=
  match m.annotationHere with
  | none => false
  | some item => r_codemeta_item_is_reference item

def isFunctionVariable (m : DecompilerContextMenu) : Bool :=
  match m.annotationHere with
  | none => false
  | some item => r_codemeta_item_is_variable item

/-- The name `annotationHere->variable.name` is looked up among the variables
the core reports at `offset`.  Only called when `annotationHere` is set; the
value for a null pointer is immaterial and fixed to `false`. -/
def variablePresentInR2 (core : Core) (m : DecompilerContextMenu) : Bool :=
  match m.annotationHere with
  | none => false
  | some item =>
    let variableName := item.variable_.name
    let vars := core.getVariables m.offset
    vars.any (fun var => var == variableName)

/-- `mainWindow->createShowInMenu(this, address [, hint])`: a new menu; the
result is the widget with the menu on its heap and the pointer to it. -/
def createShowInMenu (m : DecompilerContextMenu) (address : RVA)
    (hint : Option AddressTypeHint) : DecompilerContextMenu × MenuPtr :=
  ({ m with heapMenus := m.heapMenus ++ [ShowInMenu.mk address hint] },
    .created m.heapMenus.length)

/-- The body of the first loop of `updateTargetMenuActions` for one action. -/
def releaseTargetAction (m : DecompilerContextMenu) (action : Nat) :
    DecompilerContextMenu :=
  let m := { m with actions := removeAction m.actions (.created action) }
  let menu := m.heapActions[action]?.bind (fun a => a.menu)
  let m :=
    match menu with
    | some p => { m with deleteLaterMenus := m.deleteLaterMenus ++ [p] }
    | none => m
  { m with deleteLaterActions := m.deleteLaterActions ++ [action] }

/-- The "show target in" entry of the previous cycle is taken out of the menu
and released; when the annotation is a reference, a new one is created and
inserted in front of `copySeparator`. -/
def updateTargetMenuActions (core : Core) (m : DecompilerContextMenu) :
    DecompilerContextMenu :=
  let m := m.showTargetMenuActions.foldl releaseTargetAction m
  let m := { m with showTargetMenuActions := [] }
  if m.isReference then
    match m.annotationHere with
    | none => m
    | some item =>
      let (m, name, menu) :=
        if item.type == R_CODEMETA_TYPE_GLOBAL_VARIABLE
            || item.type == R_CODEMETA_TYPE_CONSTANT_VARIABLE then
          let (m, menu) := m.createShowInMenu item.reference.offset (some .Data)
          let var_addr := item.reference.offset
          let name :=
            match core.r_flag_get_i var_addr with
            | some flagName => tr "Show " ++ flagName ++ tr " in"
            | none => tr "Show " ++ core.RAddressString item.reference.offset ++ tr " in"
          (m, name, some menu)
        else if item.type == R_CODEMETA_TYPE_FUNCTION_NAME then
          let (m, menu) := m.createShowInMenu item.reference.offset (some .Function)
          let name :=
            item.reference.name ++ " (" ++ core.RAddressString item.reference.offset ++ ")"
          (m, name, some menu)
        else
          (m, "", none)
      let action := m.heapActions.length
      let m := { m with heapActions := m.heapActions ++ [CreatedAction.mk name none] }
      let m := { m with showTargetMenuActions := m.showTargetMenuActions ++ [action] }
      let m :=
        { m with
          heapActions := m.heapActions.set action (CreatedAction.mk name menu) }
      { m with
        actions :=
          insertActions m.actions (.fixed .copySeparator)
            (m.showTargetMenuActions.map .created) }
  else
    m

/-- The slot of `aboutToHide`. -/
def aboutToHideSlot (m : DecompilerContextMenu) : DecompilerContextMenu :=
  let m := { m with actionAddComment := m.actionAddComment.setVisible true }
  let m := { m with actionRenameThingHere := m.actionRenameThingHere.setVisible true }
  let m := { m with actionRenameThingHere := m.actionRenameThingHere.setEnabled true }
  let m := { m with actionDeleteName := m.actionDeleteName.setVisible false }
  let m :=
    { m with actionEditFunctionVariables := m.actionEditFunctionVariables.setVisible true }
  let m :=
    { m with actionEditFunctionVariables := m.actionEditFunctionVariables.setEnabled true }
  let m := { m with actionXRefs := m.actionXRefs.setVisible true }
  m.setToolTipsVisible false

/-- Lines 164-179 of `aboutToShowSlot`: the comment actions. -/
def showCommentActions (core : Core) (m : DecompilerContextMenu) : DecompilerContextMenu :=
  if m.firstOffsetInLine != RVA_MAX then
    let m := { m with actionShowInSubmenu := m.actionShowInSubmenu.setVisible true }
    let comment := core.cmdRawAtCC m.firstOffsetInLine
    let m := { m with actionAddComment := m.actionAddComment.setVisible true }
    if comment.isEmpty then
      let m := { m with actionDeleteComment := m.actionDeleteComment.setVisible false }
      { m with actionAddComment := m.actionAddComment.setText (tr "Add Comment") }
    else
      let m := { m with actionDeleteComment := m.actionDeleteComment.setVisible true }
      { m with actionAddComment := m.actionAddComment.setText (tr "Edit Comment") }
  else
    let m := { m with actionShowInSubmenu := m.actionShowInSubmenu.setVisible false }
    let m := { m with actionAddComment := m.actionAddComment.setVisible false }
    { m with actionDeleteComment := m.actionDeleteComment.setVisible false }

/-- Lines 186-201 of `aboutToShowSlot`: the breakpoint actions. -/
def showBreakpointActions (m : DecompilerContextMenu) : DecompilerContextMenu :=
  let hasBreakpoint := !m.availableBreakpoints.isEmpty
  let numberOfBreakpoints := m.availableBreakpoints.length
  let m :=
    if numberOfBreakpoints == 0 then
      { m with actionToggleBreakpoint := m.actionToggleBreakpoint.setText (tr "Add breakpoint") }
    else if numberOfBreakpoints == 1 then
      { m with
        actionToggleBreakpoint := m.actionToggleBreakpoint.setText (tr "Remove breakpoint") }
    else
      { m with
        actionToggleBreakpoint :=
          m.actionToggleBreakpoint.setText (tr "Remove all breakpoints in line") }
  let m :=
    if numberOfBreakpoints > 1 then
      { m with
        actionAdvancedBreakpoint :=
          m.actionAdvancedBreakpoint.setMenu (some .breakpointsInLineMenu) }
    else
      { m with actionAdvancedBreakpoint := m.actionAdvancedBreakpoint.setMenu none }
  { m with
    actionAdvancedBreakpoint :=
      m.actionAdvancedBreakpoint.setText
        (if hasBreakpoint then tr "Edit breakpoint" else tr "Advanced breakpoint") }

/-- Lines 206-227 of `aboutToShowSlot`: the rename and delete-name actions. -/
def showRenameActions (core : Core) (m : DecompilerContextMenu) : DecompilerContextMenu :=
  let hide (m : DecompilerContextMenu) : DecompilerContextMenu :=
    let m := { m with actionRenameThingHere := m.actionRenameThingHere.setVisible false }
    { m with copySeparator := m.copySeparator.setVisible false }
  match m.annotationHere with
  | none => hide m
  | some item =>
    if item.type == R_CODEMETA_TYPE_CONSTANT_VARIABLE then
      hide m
    else
      let m := { m with copySeparator := m.copySeparator.setVisible true }
      if item.type == R_CODEMETA_TYPE_FUNCTION_NAME then
        { m with
          actionRenameThingHere :=
            m.actionRenameThingHere.setText (tr "Rename function " ++ item.reference.name) }
      else if item.type == R_CODEMETA_TYPE_GLOBAL_VARIABLE then
        match core.r_flag_get_i item.reference.offset with
        | some flagName =>
          let m :=
            { m with
              actionRenameThingHere :=
                m.actionRenameThingHere.setText (tr "Rename " ++ flagName) }
          let m :=
            { m with actionDeleteName := m.actionDeleteName.setText (tr "Remove " ++ flagName) }
          { m with actionDeleteName := m.actionDeleteName.setVisible true }
        | none =>
          { m with
            actionRenameThingHere :=
              m.actionRenameThingHere.setText (tr "Add name to " ++ m.curHighlightedWord) }
      else
        m

/-- Lines 229-247 of `aboutToShowSlot`: copy-reference-address and X-Refs. -/
def showReferenceActions (core : Core) (m : DecompilerContextMenu) : DecompilerContextMenu :=
  if m.isReference then
    match m.annotationHere with
    | none => m
    | some item =>
      let m :=
        { m with actionCopyReferenceAddress := m.actionCopyReferenceAddress.setVisible true }
      let referenceAddr := item.reference.offset
      let flagDetails := core.r_flag_get_i referenceAddr
      if item.type == R_CODEMETA_TYPE_FUNCTION_NAME then
        { m with
          actionCopyReferenceAddress :=
            m.actionCopyReferenceAddress.setText
              (tr "Copy address of " ++ item.reference.name ++ " ("
                ++ core.RAddressString referenceAddr ++ ")") }
      else
        match flagDetails with
        | some flagName =>
          { m with
            actionCopyReferenceAddress :=
              m.actionCopyReferenceAddress.setText
                (tr "Copy address of " ++ flagName ++ " ("
                  ++ core.RAddressString referenceAddr ++ ")") }
        | none =>
          { m with
            actionCopyReferenceAddress :=
              m.actionCopyReferenceAddress.setText
                (tr "Copy address (" ++ core.RAddressString referenceAddr ++ ")") }
  else
    let m := { m with actionXRefs := m.actionXRefs.setVisible false }
    { m with actionCopyReferenceAddress := m.actionCopyReferenceAddress.setVisible false }

/-- Lines 248-251 of `aboutToShowSlot`: the "show in" menu of the cursor address
is released and created anew. -/
def showShowInSubmenu (m : DecompilerContextMenu) : DecompilerContextMenu :=
  let m :=
    match m.actionShowInSubmenu.menu with
    | some p => { m with deleteLaterMenus := m.deleteLaterMenus ++ [p] }
    | none => m
  let (m, menu) := m.createShowInMenu m.offset none
  { m with actionShowInSubmenu := m.actionShowInSubmenu.setMenu (some menu) }

/-- Lines 254-266 of `aboutToShowSlot`: the variable actions. -/
def showVariableActions (core : Core) (m : DecompilerContextMenu) : DecompilerContextMenu :=
  if !m.isFunctionVariable then
    { m with actionEditFunctionVariables := m.actionEditFunctionVariables.setVisible false }
  else
    match m.annotationHere with
    | none => m
    | some item =>
      let m :=
        { m with
          actionEditFunctionVariables :=
            m.actionEditFunctionVariables.setText (tr "Edit variable " ++ item.variable_.name) }
      let m :=
        { m with
          actionRenameThingHere :=
            m.actionRenameThingHere.setText (tr "Rename variable " ++ item.variable_.name) }
      if !m.variablePresentInR2 core then
        let m :=
          { m with
            actionEditFunctionVariables := m.actionEditFunctionVariables.setDisabled true }
        let m := { m with actionRenameThingHere := m.actionRenameThingHere.setDisabled true }
        m.setToolTipsVisible true
      else
        m

/-- The slot of `aboutToShow`: the statements of the source in their order. -/
def aboutToShowSlot (core : Core) (m : DecompilerContextMenu) : DecompilerContextMenu :=
  let m := m.showCommentActions core
  let m := m.setupBreakpointsInLineMenu core
  let m := { m with debugMenu := m.debugMenu.setVisible core.currentlyDebugging }
  let m := m.showBreakpointActions
  let progCounterName := core.getRegisterNamePC.toUpper
  let m := { m with actionSetPC := m.actionSetPC.setText (tr "Set " ++ progCounterName ++ tr " here") }
  let m := m.showRenameActions core
  let m :=
    { m with
      actionCopyInstructionAddress :=
        m.actionCopyInstructionAddress.setText
          (tr "Copy address (" ++ core.RAddressString m.offset ++ ")") }
  let m := m.showReferenceActions core
  let m := m.showShowInSubmenu
  let m := m.updateTargetMenuActions core
  m.showVariableActions core

end DecompilerContextMenu

/-- A call that leaves the widget: to the analysis core or to a dialog. -/
inductive Call where
  /-- `QInputDialog::getText(parent, title, label, QLineEdit::Normal, text, &ok)`. -/
  | getText (title label text : String)
  /-- `QMessageBox::critical(this, title, text)`. -/
  | critical (title text : String)
  | createFunctionAt (addr : RVA) (name : String)
  | renameFunction (addr : RVA) (name : String)
  | renameFlag (oldName newName : String)
  | addFlag (addr : RVA) (name : String) (size : Nat)
  | renameFunctionVariable (newName oldName : String) (functionAddr : RVA)
  | toggleBreakpoint (addr : RVA)
  /-- `EditVariablesDialog dialog(functionAddr, name, this); dialog.exec()`. -/
  | editVariablesDialog (functionAddr : RVA) (name : String)
  deriving DecidableEq, Repr

/-- The calls that change the core's data. -/
def Call.isMutation : Call → Bool
  | .createFunctionAt _ _ => true
  | .renameFunction _ _ => true
  | .renameFlag _ _ => true
  | .addFlag _ _ _ => true
  | .renameFunctionVariable _ _ _ => true
  | .toggleBreakpoint _ => true
  | _ => false

/-- A call together with what `getIsTogglingBreakpoints()` returns while the
call is running: what the owner reads when the call notifies it. -/
structure Event where
  call : Call
  isTogglingBreakpoints : Bool
  deriving DecidableEq, Repr

/-- The user in front of a text prompt: from title, label and initial text to
the `ok` flag and the text entered. -/
structure User where
  getText : String → String → String → Bool × String

namespace DecompilerContextMenu

/-- A call made while the widget is in state `m`. -/
def emit (m : DecompilerContextMenu) (c : Call) : Event :=
  { call := c, isTogglingBreakpoints := m.getIsTogglingBreakpoints }

/-- The slot of the rename action: the widget afterwards and the calls made. -/
def actionRenameThingHereTriggered (core : Core) (user : User) (m : DecompilerContextMenu) :
    DecompilerContextMenu × List Event :=
  match m.annotationHere with
  | none => (m, [])
  | some item =>
    if item.type == R_CODEMETA_TYPE_CONSTANT_VARIABLE then
      (m, [])
    else
      let type := item.type
      if type == R_CODEMETA_TYPE_FUNCTION_NAME then
        let currentName := item.reference.name
        let func_addr := item.reference.offset
        if !core.functionAt func_addr then
          let title := tr "Define this function at " ++ core.RAddressString func_addr
          let (ok, function_name) := user.getText title (tr "Function name:") currentName
          let t := [m.emit (.getText title (tr "Function name:") currentName)]
          if ok && !function_name.isEmpty then
            (m, t ++ [m.emit (.createFunctionAt func_addr function_name)])
          else
            (m, t)
        else
          let title := tr "Rename function " ++ currentName
          let (ok, newName) := user.getText title (tr "Function name:") currentName
          let t := [m.emit (.getText title (tr "Function name:") currentName)]
          if ok && !newName.isEmpty then
            (m, t ++ [m.emit (.renameFunction func_addr newName)])
          else
            (m, t)
      else if type == R_CODEMETA_TYPE_GLOBAL_VARIABLE then
        let var_addr := item.reference.offset
        match core.r_flag_get_i var_addr with
        | some flagName =>
          let title := tr "Rename " ++ flagName
          let (ok, newName) := user.getText title (tr "Enter name") flagName
          let t := [m.emit (.getText title (tr "Enter name") flagName)]
          if ok && !newName.isEmpty then
            (m, t ++ [m.emit (.renameFlag flagName newName)])
          else
            (m, t)
        | none =>
          let title := tr "Add name to " ++ m.curHighlightedWord
          let (ok, newName) := user.getText title (tr "Enter name") m.curHighlightedWord
          let t := [m.emit (.getText title (tr "Enter name") m.curHighlightedWord)]
          if ok && !newName.isEmpty then
            (m, t ++ [m.emit (.addFlag var_addr newName 1)])
          else
            (m, t)
      else if m.isFunctionVariable then
        if !m.variablePresentInR2 core then
          (m,
            [m.emit
              (.critical (tr "Rename local variable " ++ item.variable_.name)
                (tr ("Can't rename this variable. "
                  ++ "Only local variables defined in disassembly can be "
                  ++ "renamed.")))])
        else
          let oldName := item.variable_.name
          let title := tr "Rename " ++ oldName
          let (ok, newName) := user.getText title (tr "Enter name") oldName
          let t := [m.emit (.getText title (tr "Enter name") oldName)]
          if ok && !newName.isEmpty then
            (m, t ++ [m.emit (.renameFunctionVariable newName oldName m.decompiledFunctionAddress)])
          else
            (m, t)
      else
        (m, [])

/-- The slot of the edit-variable action. -/
def actionEditFunctionVariablesTriggered (core : Core) (m : DecompilerContextMenu) :
    DecompilerContextMenu × List Event :=
  if !m.isFunctionVariable then
    (m, [])
  else
    match m.annotationHere with
    | none => (m, [])
    | some item =>
      if !m.variablePresentInR2 core then
        (m,
          [m.emit
            (.critical (tr "Edit local variable " ++ item.variable_.name)
              (tr ("Can't edit this variable. Only local variables defined in "
                ++ "disassembly can be edited.")))])
      else
        (m, [m.emit (.editVariablesDialog m.decompiledFunctionAddress item.variable_.name)])

/-- The slot of the toggle-breakpoint action. -/
def actionToggleBreakpointTriggered (m : DecompilerContextMenu) :
    DecompilerContextMenu × List Event :=
  if !m.availableBreakpoints.isEmpty then
    let m := m.setIsTogglingBreakpoints true
    let (m, t) :=
      m.availableBreakpoints.foldl
        (fun (acc : DecompilerContextMenu × List Event) offsetToRemove =>
          (acc.1, acc.2 ++ [acc.1.emit (.toggleBreakpoint offsetToRemove)]))
        (m, [])
    let m := { m with availableBreakpoints := [] }
    let m := m.setIsTogglingBreakpoints false
    (m, t)
  else if m.firstOffsetInLine == RVA_MAX then
    (m, [])
  else
    (m, [m.emit (.toggleBreakpoint m.firstOffsetInLine)])

end DecompilerContextMenu

/-! ## The owner's state, runs of the widget and sample collaborators -/

/-- What the owner sets before it opens the menu, one field per setter. -/
structure OwnerState where
  annotationHere : Option RCodeMetaItem
  curHighlightedWord : String
  offset : RVA
  decompiledFunctionAddress : RVA
  firstOffsetInLine : RVA
  availableBreakpoints : List RVA

namespace DecompilerContextMenu

/-- The six setters, called one after the other. -/
def setOwnerState (m : DecompilerContextMenu) (o : OwnerState) : DecompilerContextMenu :=
  (((((m.setAnnotationHere o.annotationHere).setCurHighlightedWord o.curHighlightedWord).setOffset
    o.offset).setDecompiledFunctionAddress o.decompiledFunctionAddress).setFirstOffsetInLine
      o.firstOffsetInLine).setAvailableBreakpoints o.availableBreakpoints

end DecompilerContextMenu

/-- Whether an entry of the action list was created with `new QAction`. -/
def ActionPtr.isCreated : ActionPtr → Bool
  | .created _ => true
  | .fixed _ => false

/-- What happens to the widget during its life: the owner sets its state, the
menu opens or closes, or the user triggers one of the slots. -/
inductive Step where
  | setOwnerState (o : OwnerState)
  | aboutToShow (core : Core)
  | aboutToHide
  | renameThingHere (core : Core) (user : User)
  | editFunctionVariables (core : Core)
  | toggleBreakpoint

namespace DecompilerContextMenu

/-- One step of the widget's life. -/
def step (m : DecompilerContextMenu) : Step → DecompilerContextMenu
  | .setOwnerState o => m.setOwnerState o
  | .aboutToShow core => m.aboutToShowSlot core
  | .aboutToHide => m.aboutToHideSlot
  | .renameThingHere core user => (m.actionRenameThingHereTriggered core user).1
  | .editFunctionVariables core => (m.actionEditFunctionVariablesTriggered core).1
  | .toggleBreakpoint => m.actionToggleBreakpointTriggered.1

/-- A sequence of steps, first to last. -/
def run (m : DecompilerContextMenu) (steps : List Step) : DecompilerContextMenu :=
  steps.foldl step m

end DecompilerContextMenu

/-- The bookkeeping of the "show target in" entries: the action list holds
no created action beside the tracked ones, every tracked pointer is a created
action, and every created action is tracked or released. -/
def DecompilerContextMenu.TargetInv (m : DecompilerContextMenu) : Prop :=
  (∀ p, ActionPtr.created p ∈ m.actions → p ∈ m.showTargetMenuActions)
    ∧ (∀ p ∈ m.showTargetMenuActions, p < m.heapActions.length)
    ∧ (∀ p, p < m.heapActions.length → p ∈ m.showTargetMenuActions ∨ p ∈ m.deleteLaterActions)

/-- A freshly constructed menu on a line with three breakpoints. -/
def DecompilerContextMenu.sampleLine : DecompilerContextMenu :=
  (DecompilerContextMenu.new 0x10).setAvailableBreakpoints [0x10, 0x14, 0x1c]

/-- An annotation of the given type; the members that the type does not use
are empty. -/
def RCodeMetaItem.sample (type : RCodeMetaItemType) (name : String) (offset : RVA) :
    RCodeMetaItem :=
  { type := type
    reference := { name := name, offset := offset }
    variable_ := { name := name } }

/-- A freshly constructed menu with the cursor on the function name
`sym.main` at `0x1000`. -/
def DecompilerContextMenu.sampleFunction : DecompilerContextMenu :=
  (DecompilerContextMenu.new 0x1000).setAnnotationHere
    (some (RCodeMetaItem.sample R_CODEMETA_TYPE_FUNCTION_NAME "sym.main" 0x1000))

/-- A freshly constructed menu with the cursor on the local variable `var_8h`
of the function at `0x1000`. -/
def DecompilerContextMenu.sampleVariable : DecompilerContextMenu :=
  ((DecompilerContextMenu.new 0x1000).setAnnotationHere
    (some (RCodeMetaItem.sample R_CODEMETA_TYPE_LOCAL_VARIABLE "var_8h"
      0))).setDecompiledFunctionAddress 0x1000

/-- The cursor on the global variable at `0x4010`, shown as `data_4010`, on a
line that starts at `0x1000` and has no breakpoint. -/
def OwnerState.sample : OwnerState :=
  { annotationHere := some (RCodeMetaItem.sample R_CODEMETA_TYPE_GLOBAL_VARIABLE "" 0x4010)
    curHighlightedWord := "data_4010"
    offset := 0x1004
    decompiledFunctionAddress := 0x1000
    firstOffsetInLine := 0x1000
    availableBreakpoints := [] }

/-- The cursor on plain text: no annotation under it. -/
def OwnerState.plain : OwnerState :=
  { annotationHere := none
    curHighlightedWord := "return"
    offset := 0x1004
    decompiledFunctionAddress := 0x1000
    firstOffsetInLine := 0x1000
    availableBreakpoints := [] }

/-- The owner sets its state and the menu opens. -/
def DecompilerContextMenu.openWith (m : DecompilerContextMenu) (o : OwnerState) (core : Core) :
    DecompilerContextMenu :=
  (m.setOwnerState o).aboutToShowSlot core

/-- A user who confirms every prompt with the same text. -/
def User.confirming (name : String) : User :=
  { getText := fun _ _ _ => (true, name) }

/-- A user who cancels every prompt. -/
def User.cancelling : User :=
  { getText := fun _ _ _ => (false, "") }

/-- A core without comments, flags, functions or variables, not debugging. -/
def Core.blank : Core :=
  { RAddressString := fun a => "0x" ++ String.mk (Nat.toDigits 16 a)
    cmdRawAtCC := fun _ => ""
    currentlyDebugging := false
    getRegisterNamePC := "rip"
    r_flag_get_i := fun _ => none
    functionAt := fun _ => false
    getVariables := fun _ => [] }

/-- A core that knows the flag `sym.counter` at `0x4010`, the function at
`0x1000` and the variable `var_8h`. -/
def Core.sample : Core :=
  { Core.blank with
    r_flag_get_i := fun a => if a = 0x4010 then some "sym.counter" else none
    functionAt := fun a => a == 0x1000
    getVariables := fun _ => ["var_8h"] }

/-- What the user sees of an action: visibility, enabled state and label. -/
def QAction.look (a : QAction) : Bool × Bool × String :=
  (a.visible, a.enabled, a.text)

/-- Every action the widget owns as a member, the separator it keeps a pointer
to and the actions of its two sub-menus included. -/
def DecompilerContextMenu.allActions (m : DecompilerContextMenu) : List QAction :=
  [m.actionCopy, m.actionCopyInstructionAddress, m.actionCopyReferenceAddress,
    m.actionEditAnnotationItem, m.actionShowInSubmenu, m.actionAddComment,
    m.actionDeleteComment, m.actionRenameThingHere, m.actionDeleteName,
    m.actionEditFunctionVariables, m.actionXRefs, m.actionToggleBreakpoint,
    m.actionAdvancedBreakpoint, m.actionContinueUntil, m.actionSetPC, m.copySeparator,
    m.breakpointMenu, m.debugMenu]

/-! ## What each part of `aboutToShowSlot` writes -/

namespace DecompilerContextMenu

/-- The actions `showCommentActions` writes, after it. -/
def commentPart (core : Core) (m : DecompilerContextMenu) : QAction × QAction × QAction :=
  ((m.showCommentActions core).actionShowInSubmenu, (m.showCommentActions core).actionAddComment,
    (m.showCommentActions core).actionDeleteComment)

/-- The actions `showBreakpointActions` writes, after it. -/
def breakpointPart (m : DecompilerContextMenu) : QAction × QAction :=
  (m.showBreakpointActions.actionToggleBreakpoint, m.showBreakpointActions.actionAdvancedBreakpoint)

/-- The actions `showRenameActions` writes, after it. -/
def renamePart (core : Core) (m : DecompilerContextMenu) : QAction × QAction × QAction :=
  ((m.showRenameActions core).actionRenameThingHere, (m.showRenameActions core).copySeparator,
    (m.showRenameActions core).actionDeleteName)

/-- The actions `showReferenceActions` writes, after it. -/
def referencePart (core : Core) (m : DecompilerContextMenu) : QAction × QAction :=
  ((m.showReferenceActions core).actionCopyReferenceAddress, (m.showReferenceActions core).actionXRefs)

/-- The fields `showShowInSubmenu` writes, after it. -/
def showInPart (m : DecompilerContextMenu) : QAction × List ShowInMenu × List MenuPtr :=
  (m.showShowInSubmenu.actionShowInSubmenu, m.showShowInSubmenu.heapMenus,
    m.showShowInSubmenu.deleteLaterMenus)

/-- The fields `showVariableActions` writes, after it. -/
def variablePart (core : Core) (m : DecompilerContextMenu) : QAction × QAction × Bool :=
  ((m.showVariableActions core).actionEditFunctionVariables,
    (m.showVariableActions core).actionRenameThingHere, (m.showVariableActions core).toolTipsVisible)

/-- The fields `updateTargetMenuActions` writes, after it. -/
def targetPart (core : Core) (m : DecompilerContextMenu) :
    List Nat × List ActionPtr × List CreatedAction × List ShowInMenu × List MenuPtr × List Nat :=
  ((m.updateTargetMenuActions core).showTargetMenuActions,
    (m.updateTargetMenuActions core).actions,
    (m.updateTargetMenuActions core).heapActions,
    (m.updateTargetMenuActions core).heapMenus,
    (m.updateTargetMenuActions core).deleteLaterMenus,
    (m.updateTargetMenuActions core).deleteLaterActions)

end DecompilerContextMenu

/-! ## Frame lemmas -/

namespace DecompilerContextMenu

theorem foldl_breakpointsInLineMenu (core : Core) (l : List RVA) (m : DecompilerContextMenu) :
    l.foldl
        (fun m curOffset =>
          { m with
            breakpointsInLineMenu :=
              m.breakpointsInLineMenu ++ [(core.RAddressString curOffset, curOffset)] })
        m
      = { m with
          breakpointsInLineMenu :=
            m.breakpointsInLineMenu ++ l.map (fun o => (core.RAddressString o, o)) } := by
  induction l generalizing m with
  | nil => simp
  | cons a l ih => simp [ih]

theorem setupBreakpointsInLineMenu_eq (core : Core) (m : DecompilerContextMenu) :
    m.setupBreakpointsInLineMenu core
      = { m with
          breakpointsInLineMenu :=
            m.availableBreakpoints.map (fun o => (core.RAddressString o, o)) } := by
  simp [setupBreakpointsInLineMenu, foldl_breakpointsInLineMenu]

theorem showCommentActions_frame (core : Core) (m : DecompilerContextMenu) :
    m.showCommentActions core
      = { m with
          actionShowInSubmenu := (commentPart core m).1
          actionAddComment := (commentPart core m).2.1
          actionDeleteComment := (commentPart core m).2.2 } := by
  unfold commentPart showCommentActions
  by_cases h : m.firstOffsetInLine != RVA_MAX
    <;> by_cases h2 : (core.cmdRawAtCC m.firstOffsetInLine).isEmpty
    <;> simp [h, h2]

theorem showBreakpointActions_frame (m : DecompilerContextMenu) :
    m.showBreakpointActions
      = { m with
          actionToggleBreakpoint := (breakpointPart m).1
          actionAdvancedBreakpoint := (breakpointPart m).2 } := by
  unfold breakpointPart showBreakpointActions
  rcases h : m.availableBreakpoints with _ | ⟨a, _ | ⟨b, l⟩⟩ <;> simp [h]

theorem showRenameActions_frame (core : Core) (m : DecompilerContextMenu) :
    m.showRenameActions core
      = { m with
          actionRenameThingHere := (renamePart core m).1
          copySeparator := (renamePart core m).2.1
          actionDeleteName := (renamePart core m).2.2 } := by
  unfold renamePart showRenameActions
  rcases h : m.annotationHere with _ | item
  · simp [h]
  · rcases ht : item.type <;> rcases hf : core.r_flag_get_i item.reference.offset
      <;> simp [h, ht, hf]

theorem showReferenceActions_frame (core : Core) (m : DecompilerContextMenu) :
    m.showReferenceActions core
      = { m with
          actionCopyReferenceAddress := (referencePart core m).1
          actionXRefs := (referencePart core m).2 } := by
  unfold referencePart showReferenceActions isReference
  rcases h : m.annotationHere with _ | item
  · simp [h]
  · rcases ht : item.type <;> rcases hf : core.r_flag_get_i item.reference.offset
      <;> simp [h, ht, hf, r_codemeta_item_is_reference]

theorem showShowInSubmenu_frame (m : DecompilerContextMenu) :
    m.showShowInSubmenu
      = { m with
          actionShowInSubmenu := (showInPart m).1
          heapMenus := (showInPart m).2.1
          deleteLaterMenus := (showInPart m).2.2 } := by
  unfold showInPart showShowInSubmenu createShowInMenu
  rcases h : m.actionShowInSubmenu.menu <;> simp [h]

theorem showVariableActions_frame (core : Core) (m : DecompilerContextMenu) :
    m.showVariableActions core
      = { m with
          actionEditFunctionVariables := (variablePart core m).1
          actionRenameThingHere := (variablePart core m).2.1
          toolTipsVisible := (variablePart core m).2.2 } := by
  unfold variablePart showVariableActions isFunctionVariable variablePresentInR2 setToolTipsVisible
  rcases h : m.annotationHere with _ | item
  · simp [h]
  · by_cases hv : r_codemeta_item_is_variable item
      <;> by_cases hp : ((core.getVariables m.offset).any fun var => var == item.variable_.name)
      <;> simp [h, hv, hp]

theorem foldl_releaseTargetAction (l : List Nat) (m : DecompilerContextMenu) :
    l.foldl releaseTargetAction m
      = { m with
          actions := l.foldl (fun acc a => removeAction acc (.created a)) m.actions
          deleteLaterMenus :=
            m.deleteLaterMenus ++ l.filterMap (fun a => m.heapActions[a]?.bind (fun x => x.menu))
          deleteLaterActions := m.deleteLaterActions ++ l } := by
  induction l generalizing m with
  | nil => simp
  | cons a l ih =>
    rw [List.foldl_cons, ih]
    unfold releaseTargetAction
    rcases h : m.heapActions[a]?.bind (fun x => x.menu) <;> simp [h]

theorem updateTargetMenuActions_frame (core : Core) (m : DecompilerContextMenu) :
    m.updateTargetMenuActions core
      = { m with
          showTargetMenuActions := (targetPart core m).1
          actions := (targetPart core m).2.1
          heapActions := (targetPart core m).2.2.1
          heapMenus := (targetPart core m).2.2.2.1
          deleteLaterMenus := (targetPart core m).2.2.2.2.1
          deleteLaterActions := (targetPart core m).2.2.2.2.2 } := by
  unfold targetPart updateTargetMenuActions isReference createShowInMenu
  rw [foldl_releaseTargetAction]
  rcases h : m.annotationHere with _ | item
  · simp [h]
  · rcases ht : item.type <;> rcases hf : core.r_flag_get_i item.reference.offset
      <;> simp [h, ht, hf, r_codemeta_item_is_reference]

theorem aboutToShowSlot_breakpointActions (core : Core) (m : DecompilerContextMenu) :
    (m.aboutToShowSlot core).actionToggleBreakpoint = (breakpointPart m).1
      ∧ (m.aboutToShowSlot core).actionAdvancedBreakpoint = (breakpointPart m).2 := by
  unfold aboutToShowSlot
  simp only [showVariableActions_frame, updateTargetMenuActions_frame, showShowInSubmenu_frame,
    showReferenceActions_frame, showRenameActions_frame, showBreakpointActions_frame,
    setupBreakpointsInLineMenu_eq, showCommentActions_frame]
  constructor <;>
    rcases h : m.availableBreakpoints with _ | ⟨a, _ | ⟨b, l⟩⟩ <;>
    simp [breakpointPart, showBreakpointActions, h]

/-! ## The breakpoint labels -/

/-- C1: after the on-open recomputation the toggle-breakpoint action reads
"Add breakpoint" iff the line has no breakpoint, "Remove breakpoint" iff it
has exactly one and "Remove all breakpoints in line" iff it has more than one;
the advanced-breakpoint action carries the per-line submenu iff there is more
than one breakpoint and no menu otherwise, and reads "Edit breakpoint" iff the
list is non-empty and "Advanced breakpoint" iff it is empty. -/
theorem aboutToShowSlot_breakpoint_labels (core : Core) (m : DecompilerContextMenu)
    (offsetList : List RVA) :
    (((m.setAvailableBreakpoints offsetList).aboutToShowSlot core).actionToggleBreakpoint.text
          = "Add breakpoint" ↔ offsetList.length = 0)
      ∧ (((m.setAvailableBreakpoints offsetList).aboutToShowSlot core).actionToggleBreakpoint.text
          = "Remove breakpoint" ↔ offsetList.length = 1)
      ∧ (((m.setAvailableBreakpoints offsetList).aboutToShowSlot core).actionToggleBreakpoint.text
          = "Remove all breakpoints in line" ↔ offsetList.length > 1)
      ∧ (((m.setAvailableBreakpoints offsetList).aboutToShowSlot core).actionAdvancedBreakpoint.menu
          = some MenuPtr.breakpointsInLineMenu ↔ offsetList.length > 1)
      ∧ (((m.setAvailableBreakpoints offsetList).aboutToShowSlot core).actionAdvancedBreakpoint.menu
          = none ↔ ¬ offsetList.length > 1)
      ∧ (((m.setAvailableBreakpoints offsetList).aboutToShowSlot core).actionAdvancedBreakpoint.text
          = "Edit breakpoint" ↔ offsetList ≠ [])
      ∧ (((m.setAvailableBreakpoints offsetList).aboutToShowSlot core).actionAdvancedBreakpoint.text
          = "Advanced breakpoint" ↔ offsetList = []) := by
  obtain ⟨h1, h2⟩ := aboutToShowSlot_breakpointActions core (m.setAvailableBreakpoints offsetList)
  rw [h1, h2]
  rcases offsetList with _ | ⟨a, _ | ⟨b, l⟩⟩ <;>
    simp [breakpointPart, showBreakpointActions, setAvailableBreakpoints, QAction.setText,
      QAction.setMenu, tr]

/-! ## The toggle-breakpoint slot -/

theorem foldl_toggleBreakpoint (l : List RVA) (m : DecompilerContextMenu) (t : List Event) :
    l.foldl
        (fun (acc : DecompilerContextMenu × List Event) offsetToRemove =>
          (acc.1, acc.2 ++ [acc.1.emit (.toggleBreakpoint offsetToRemove)]))
        (m, t)
      = (m, t ++ l.map (fun a => m.emit (.toggleBreakpoint a))) := by
  induction l generalizing t with
  | nil => simp
  | cons a l ih => simp [ih]

theorem actionToggleBreakpointTriggered_of_ne_nil (m : DecompilerContextMenu)
    (h : m.availableBreakpoints ≠ []) :
    m.actionToggleBreakpointTriggered
      = ({ m with availableBreakpoints := [], isTogglingBreakpoints := false },
          m.availableBreakpoints.map (fun a => Event.mk (.toggleBreakpoint a) true)) := by
  unfold actionToggleBreakpointTriggered
  have h' : m.availableBreakpoints.isEmpty = false := by
    cases hl : m.availableBreakpoints with
    | nil => exact absurd hl h
    | cons a l => rfl
  simp only [h', setIsTogglingBreakpoints, Bool.not_false, if_true]
  rw [foldl_toggleBreakpoint]
  simp [emit, getIsTogglingBreakpoints]

/-- C2: with more than one tracked breakpoint, the toggle slot calls the
core's `toggleBreakpoint` once per tracked address, in the order of the list
and with nothing else in between, so exactly N times; `isTogglingBreakpoints`
reads true during each of these calls; when the slot returns, the tracked list
is empty and `isTogglingBreakpoints` reads false. -/
theorem actionToggleBreakpointTriggered_removes_all (m : DecompilerContextMenu)
    (hN : m.availableBreakpoints.length > 1) :
    m.actionToggleBreakpointTriggered.2.map Event.call
        = m.availableBreakpoints.map Call.toggleBreakpoint
      ∧ m.actionToggleBreakpointTriggered.2.length = m.availableBreakpoints.length
      ∧ (∀ e ∈ m.actionToggleBreakpointTriggered.2, e.isTogglingBreakpoints = true)
      ∧ m.actionToggleBreakpointTriggered.1.availableBreakpoints = []
      ∧ m.actionToggleBreakpointTriggered.1.getIsTogglingBreakpoints = false := by
  have hne : m.availableBreakpoints ≠ [] := by
    intro h
    rw [h] at hN
    exact absurd hN (by decide)
  rw [actionToggleBreakpointTriggered_of_ne_nil m hne]
  refine ⟨?_, ?_, ?_, rfl, rfl⟩
  · simp [Function.comp_def]
  · simp
  · intro e he
    obtain ⟨a, _, rfl⟩ := List.mem_map.mp he
    rfl

theorem actionToggleBreakpointTriggered_removes_all_witness :
    DecompilerContextMenu.sampleLine.availableBreakpoints.length > 1
      ∧ (DecompilerContextMenu.sampleLine.actionToggleBreakpointTriggered.2.map Event.call
            = DecompilerContextMenu.sampleLine.availableBreakpoints.map Call.toggleBreakpoint
          ∧ DecompilerContextMenu.sampleLine.actionToggleBreakpointTriggered.2.length
            = DecompilerContextMenu.sampleLine.availableBreakpoints.length
          ∧ (∀ e ∈ DecompilerContextMenu.sampleLine.actionToggleBreakpointTriggered.2,
              e.isTogglingBreakpoints = true)
          ∧ DecompilerContextMenu.sampleLine.actionToggleBreakpointTriggered.1.availableBreakpoints
            = []
          ∧ DecompilerContextMenu.sampleLine.actionToggleBreakpointTriggered.1.getIsTogglingBreakpoints
            = false) :=
  ⟨by decide,
    actionToggleBreakpointTriggered_removes_all DecompilerContextMenu.sampleLine (by decide)⟩

/-! ## The rename slot -/

theorem isEmpty_eq_false_of_ne {name : String} (h : name ≠ "") : name.isEmpty = false := by
  cases hE : name.isEmpty with
  | false => rfl
  | true => exact absurd ((String.isEmpty_iff name).mp hE) h

/-- The rename slot never writes a member of the widget. -/
theorem actionRenameThingHereTriggered_fst (core : Core) (user : User)
    (m : DecompilerContextMenu) : (m.actionRenameThingHereTriggered core user).1 = m := by
  unfold actionRenameThingHereTriggered
  rcases h : m.annotationHere with _ | item
  · rfl
  · dsimp only
    repeat' split
    all_goals rfl

/-- C3: for a function-name annotation and a non-empty name the user confirms,
the rename slot shows one prompt and then makes exactly one call that changes
the core: `createFunctionAt(address, name)` when the core has no function at
the annotation's address, `renameFunction(address, name)` when it has one. -/
theorem actionRenameThingHereTriggered_function (core : Core) (user : User)
    (m : DecompilerContextMenu) (item : RCodeMetaItem) (name : String)
    (hitem : m.annotationHere = some item)
    (htype : item.type = R_CODEMETA_TYPE_FUNCTION_NAME)
    (hok : ∀ title label text, user.getText title label text = (true, name))
    (hname : name ≠ "") :
    (m.actionRenameThingHereTriggered core user).2.map Event.call
        = (if core.functionAt item.reference.offset then
            [Call.getText ("Rename function " ++ item.reference.name) "Function name:"
                item.reference.name,
              Call.renameFunction item.reference.offset name]
          else
            [Call.getText
                ("Define this function at " ++ core.RAddressString item.reference.offset)
                "Function name:" item.reference.name,
              Call.createFunctionAt item.reference.offset name])
      ∧ ((m.actionRenameThingHereTriggered core user).2.map Event.call).filter Call.isMutation
        = [if core.functionAt item.reference.offset then
            Call.renameFunction item.reference.offset name
          else
            Call.createFunctionAt item.reference.offset name] := by
  have hE := isEmpty_eq_false_of_ne hname
  unfold actionRenameThingHereTriggered
  cases hf : core.functionAt item.reference.offset <;>
    simp [hitem, htype, hok, hE, hf, emit, tr, Call.isMutation]

theorem actionRenameThingHereTriggered_function_witness :
    ((DecompilerContextMenu.new 0x1000).setAnnotationHere
          (some (RCodeMetaItem.sample R_CODEMETA_TYPE_FUNCTION_NAME "sym.main" 0x1000))).annotationHere
        = some (RCodeMetaItem.sample R_CODEMETA_TYPE_FUNCTION_NAME "sym.main" 0x1000)
      ∧ ((((DecompilerContextMenu.new 0x1000).setAnnotationHere
              (some (RCodeMetaItem.sample R_CODEMETA_TYPE_FUNCTION_NAME "sym.main"
                0x1000))).actionRenameThingHereTriggered Core.sample
              (User.confirming "entry")).2.map Event.call
          = [Call.getText "Rename function sym.main" "Function name:" "sym.main",
              Call.renameFunction 0x1000 "entry"])
      ∧ ((((DecompilerContextMenu.new 0x1000).setAnnotationHere
              (some (RCodeMetaItem.sample R_CODEMETA_TYPE_FUNCTION_NAME "sym.main"
                0x1000))).actionRenameThingHereTriggered Core.blank
              (User.confirming "entry")).2.map Event.call).filter Call.isMutation
          = [Call.createFunctionAt 0x1000 "entry"] :=
  ⟨rfl,
    (actionRenameThingHereTriggered_function Core.sample (User.confirming "entry")
      ((DecompilerContextMenu.new 0x1000).setAnnotationHere
        (some (RCodeMetaItem.sample R_CODEMETA_TYPE_FUNCTION_NAME "sym.main" 0x1000)))
      (RCodeMetaItem.sample R_CODEMETA_TYPE_FUNCTION_NAME "sym.main" 0x1000) "entry" rfl rfl
      (fun _ _ _ => rfl) (by decide)).1,
    (actionRenameThingHereTriggered_function Core.blank (User.confirming "entry")
      ((DecompilerContextMenu.new 0x1000).setAnnotationHere
        (some (RCodeMetaItem.sample R_CODEMETA_TYPE_FUNCTION_NAME "sym.main" 0x1000)))
      (RCodeMetaItem.sample R_CODEMETA_TYPE_FUNCTION_NAME "sym.main" 0x1000) "entry" rfl rfl
      (fun _ _ _ => rfl) (by decide)).2⟩

/-! ## A global variable without a flag -/

/-- For a global variable without a flag, `aboutToShowSlot` writes the label
of the rename action and leaves the delete-name action as it is. -/
theorem aboutToShowSlot_global_without_flag (core : Core) (m : DecompilerContextMenu)
    (item : RCodeMetaItem) (hitem : m.annotationHere = some item)
    (htype : item.type = R_CODEMETA_TYPE_GLOBAL_VARIABLE)
    (hflag : core.r_flag_get_i item.reference.offset = none) :
    (m.aboutToShowSlot core).actionRenameThingHere.text = "Add name to " ++ m.curHighlightedWord
      ∧ (m.aboutToShowSlot core).actionDeleteName = m.actionDeleteName
      ∧ (m.aboutToShowSlot core).annotationHere = m.annotationHere
      ∧ (m.aboutToShowSlot core).curHighlightedWord = m.curHighlightedWord := by
  unfold aboutToShowSlot
  simp only [showVariableActions_frame, updateTargetMenuActions_frame, showShowInSubmenu_frame,
    showReferenceActions_frame, showRenameActions_frame, showBreakpointActions_frame,
    setupBreakpointsInLineMenu_eq, showCommentActions_frame]
  simp [variablePart, showVariableActions, renamePart, showRenameActions, isFunctionVariable,
    r_codemeta_item_is_variable, hitem, htype, hflag, QAction.setText, tr]

/-- C4, as stated, fails: a menu left open on the flagged global variable at
`0x4010` (an opening not followed by a closing) shows delete-name; the owner
then puts the cursor on the global variable at `0x4020`, which has no flag,
and the next opening still shows delete-name. -/
theorem global_variable_without_flag_counterexample :
    (RCodeMetaItem.sample R_CODEMETA_TYPE_GLOBAL_VARIABLE "" 0x4020).type
        = R_CODEMETA_TYPE_GLOBAL_VARIABLE
      ∧ Core.sample.r_flag_get_i
          (RCodeMetaItem.sample R_CODEMETA_TYPE_GLOBAL_VARIABLE "" 0x4020).reference.offset
        = none
      ∧ (((((DecompilerContextMenu.new 0x1000).openWith OwnerState.sample
            Core.sample).setAnnotationHere
              (some (RCodeMetaItem.sample R_CODEMETA_TYPE_GLOBAL_VARIABLE ""
                0x4020))).setCurHighlightedWord "data_4020").aboutToShowSlot
          Core.sample).actionDeleteName.visible
        = true := by
  decide

/-- C4, amended: for a global-variable annotation at an address without a flag
and the highlighted text W, `aboutToShowSlot` labels the rename action
"Add name to W" and leaves the visibility of the delete-name action as it
found it, so that delete-name is not shown when the menu is opened from its
reset state (left by `aboutToHideSlot`, or freshly constructed); the rename
slot, with a non-empty name S confirmed, prompts once and then calls exactly
`addFlag(A, S, 1)`, and never `renameFlag`. -/
theorem global_variable_without_flag (core : Core) (user : User) (m : DecompilerContextMenu)
    (item : RCodeMetaItem) (W S : String) (firstOffset : RVA)
    (htype : item.type = R_CODEMETA_TYPE_GLOBAL_VARIABLE)
    (hflag : core.r_flag_get_i item.reference.offset = none)
    (hok : ∀ title label text, user.getText title label text = (true, S))
    (hS : S ≠ "") :
    (((m.setAnnotationHere (some item)).setCurHighlightedWord W).aboutToShowSlot
          core).actionRenameThingHere.text = "Add name to " ++ W
      ∧ (((m.setAnnotationHere (some item)).setCurHighlightedWord W).aboutToShowSlot
          core).actionDeleteName.visible = m.actionDeleteName.visible
      ∧ (((m.aboutToHideSlot.setAnnotationHere (some item)).setCurHighlightedWord
          W).aboutToShowSlot core).actionDeleteName.visible = false
      ∧ ((((DecompilerContextMenu.new firstOffset).setAnnotationHere
          (some item)).setCurHighlightedWord W).aboutToShowSlot core).actionDeleteName.visible
        = false
      ∧ ((((m.setAnnotationHere (some item)).setCurHighlightedWord W).aboutToShowSlot
          core).actionRenameThingHereTriggered core user).2.map Event.call
        = [Call.getText ("Add name to " ++ W) "Enter name" W,
            Call.addFlag item.reference.offset S 1]
      ∧ ∀ oldName newName,
          Call.renameFlag oldName newName
            ∉ ((((m.setAnnotationHere (some item)).setCurHighlightedWord W).aboutToShowSlot
                core).actionRenameThingHereTriggered core user).2.map Event.call := by
  have hE := isEmpty_eq_false_of_ne hS
  have key : ∀ m0 : DecompilerContextMenu,
      (((m0.setAnnotationHere (some item)).setCurHighlightedWord W).aboutToShowSlot
          core).actionRenameThingHere.text = "Add name to " ++ W
        ∧ (((m0.setAnnotationHere (some item)).setCurHighlightedWord W).aboutToShowSlot
          core).actionDeleteName = m0.actionDeleteName
        ∧ (((m0.setAnnotationHere (some item)).setCurHighlightedWord W).aboutToShowSlot
          core).annotationHere = some item
        ∧ (((m0.setAnnotationHere (some item)).setCurHighlightedWord W).aboutToShowSlot
          core).curHighlightedWord = W := fun m0 =>
    aboutToShowSlot_global_without_flag core
      ((m0.setAnnotationHere (some item)).setCurHighlightedWord W) item rfl htype hflag
  have hcalls :
      ((((m.setAnnotationHere (some item)).setCurHighlightedWord W).aboutToShowSlot
          core).actionRenameThingHereTriggered core user).2.map Event.call
        = [Call.getText ("Add name to " ++ W) "Enter name" W,
            Call.addFlag item.reference.offset S 1] := by
    unfold actionRenameThingHereTriggered
    simp [(key m).2.2.1, (key m).2.2.2, htype, hflag, hok, hE, emit, tr]
  refine ⟨(key m).1, ?_, ?_, ?_, hcalls, ?_⟩
  · rw [(key m).2.1]
  · rw [(key _).2.1]
    rfl
  · rw [(key _).2.1]
    rfl
  · intro oldName newName
    rw [hcalls]
    simp

theorem global_variable_without_flag_witness :
    ((((DecompilerContextMenu.new 0x4000).setAnnotationHere
          (some (RCodeMetaItem.sample R_CODEMETA_TYPE_GLOBAL_VARIABLE ""
            0x4010))).setCurHighlightedWord "data_4010").aboutToShowSlot
          Core.blank).actionRenameThingHere.text = "Add name to data_4010"
      ∧ ((((DecompilerContextMenu.new 0x4000).setAnnotationHere
          (some (RCodeMetaItem.sample R_CODEMETA_TYPE_GLOBAL_VARIABLE ""
            0x4010))).setCurHighlightedWord "data_4010").aboutToShowSlot
          Core.blank).actionDeleteName.visible = false
      ∧ (((((DecompilerContextMenu.new 0x4000).setAnnotationHere
          (some (RCodeMetaItem.sample R_CODEMETA_TYPE_GLOBAL_VARIABLE ""
            0x4010))).setCurHighlightedWord "data_4010").aboutToShowSlot
          Core.blank).actionRenameThingHereTriggered Core.blank
            (User.confirming "g_counter")).2.map Event.call
        = [Call.getText "Add name to data_4010" "Enter name" "data_4010",
            Call.addFlag 0x4010 "g_counter" 1] :=
  ⟨(global_variable_without_flag Core.blank (User.confirming "g_counter")
      (DecompilerContextMenu.new 0x4000)
      (RCodeMetaItem.sample R_CODEMETA_TYPE_GLOBAL_VARIABLE "" 0x4010) "data_4010" "g_counter"
      0x4000 rfl rfl (fun _ _ _ => rfl) (by decide)).1,
    (global_variable_without_flag Core.blank (User.confirming "g_counter")
      (DecompilerContextMenu.new 0x4000)
      (RCodeMetaItem.sample R_CODEMETA_TYPE_GLOBAL_VARIABLE "" 0x4010) "data_4010" "g_counter"
      0x4000 rfl rfl (fun _ _ _ => rfl) (by decide)).2.1,
    (global_variable_without_flag Core.blank (User.confirming "g_counter")
      (DecompilerContextMenu.new 0x4000)
      (RCodeMetaItem.sample R_CODEMETA_TYPE_GLOBAL_VARIABLE "" 0x4010) "data_4010" "g_counter"
      0x4000 rfl rfl (fun _ _ _ => rfl) (by decide)).2.2.2.2.1⟩

/-! ## Visibility after `aboutToShowSlot` -/

/-- The visibility of the five annotation-dependent actions after
`aboutToShowSlot`, from the state before it. -/
theorem aboutToShowSlot_visible (core : Core) (m : DecompilerContextMenu) :
    (m.aboutToShowSlot core).actionRenameThingHere.visible
        = (m.annotationHere.any (fun item => item.type != R_CODEMETA_TYPE_CONSTANT_VARIABLE)
            && m.actionRenameThingHere.visible)
      ∧ (m.aboutToShowSlot core).actionDeleteName.visible
        = (m.annotationHere.any
              (fun item =>
                item.type == R_CODEMETA_TYPE_GLOBAL_VARIABLE
                  && (core.r_flag_get_i item.reference.offset).isSome)
            || m.actionDeleteName.visible)
      ∧ (m.aboutToShowSlot core).actionEditFunctionVariables.visible
        = (m.isFunctionVariable && m.actionEditFunctionVariables.visible)
      ∧ (m.aboutToShowSlot core).actionXRefs.visible = (m.isReference && m.actionXRefs.visible)
      ∧ (m.aboutToShowSlot core).actionCopyReferenceAddress.visible = m.isReference := by
  unfold aboutToShowSlot
  simp only [showVariableActions_frame, updateTargetMenuActions_frame, showShowInSubmenu_frame,
    showReferenceActions_frame, showRenameActions_frame, showBreakpointActions_frame,
    setupBreakpointsInLineMenu_eq, showCommentActions_frame]
  rcases h : m.annotationHere with _ | item
  · simp [variablePart, showVariableActions, renamePart, showRenameActions, referencePart,
      showReferenceActions, isFunctionVariable, isReference, h, QAction.setText,
      QAction.setVisible]
  · rcases ht : item.type <;> rcases hf : core.r_flag_get_i item.reference.offset <;>
      by_cases hp : ((core.getVariables m.offset).any fun var => var == item.variable_.name) <;>
      simp [variablePart, showVariableActions, renamePart, showRenameActions, referencePart,
        showReferenceActions, isFunctionVariable, isReference, variablePresentInR2,
        r_codemeta_item_is_variable, r_codemeta_item_is_reference, h, ht, hf, hp, QAction.setText,
        QAction.setVisible, QAction.setDisabled, setToolTipsVisible]

/-- The setters write no action. -/
theorem setOwnerState_eq (m : DecompilerContextMenu) (o : OwnerState) :
    m.setOwnerState o
      = { m with
          annotationHere := o.annotationHere
          curHighlightedWord := o.curHighlightedWord
          offset := o.offset
          decompiledFunctionAddress := o.decompiledFunctionAddress
          firstOffsetInLine := o.firstOffsetInLine
          availableBreakpoints := o.availableBreakpoints } := rfl

/-- C5: opened from a reset state (freshly constructed, or left by
`aboutToHideSlot`) with any owner state and any core, the menu shows rename iff
there is an annotation and it is not a constant; delete-name iff the
annotation is a global variable whose address has a flag; edit-variable iff
the annotation is a local variable; X-Refs iff the annotation is a reference;
copy-reference-address iff the annotation is a reference. -/
theorem aboutToShowSlot_visibility_table (core : Core) (o : OwnerState)
    (m m0 : DecompilerContextMenu) (firstOffset : RVA)
    (hreset : m0 = DecompilerContextMenu.new firstOffset ∨ m0 = m.aboutToHideSlot) :
    (((m0.setOwnerState o).aboutToShowSlot core).actionRenameThingHere.visible = true
        ↔ ∃ item, o.annotationHere = some item
            ∧ item.type ≠ R_CODEMETA_TYPE_CONSTANT_VARIABLE)
      ∧ (((m0.setOwnerState o).aboutToShowSlot core).actionDeleteName.visible = true
        ↔ ∃ item, o.annotationHere = some item
            ∧ item.type = R_CODEMETA_TYPE_GLOBAL_VARIABLE
            ∧ core.r_flag_get_i item.reference.offset ≠ none)
      ∧ (((m0.setOwnerState o).aboutToShowSlot core).actionEditFunctionVariables.visible = true
        ↔ ∃ item, o.annotationHere = some item
            ∧ item.type = R_CODEMETA_TYPE_LOCAL_VARIABLE)
      ∧ (((m0.setOwnerState o).aboutToShowSlot core).actionXRefs.visible = true
        ↔ ∃ item, o.annotationHere = some item ∧ r_codemeta_item_is_reference item = true)
      ∧ (((m0.setOwnerState o).aboutToShowSlot core).actionCopyReferenceAddress.visible = true
        ↔ ∃ item, o.annotationHere = some item ∧ r_codemeta_item_is_reference item = true) := by
  obtain ⟨h1, h2, h3, h4, h5⟩ := aboutToShowSlot_visible core (m0.setOwnerState o)
  rw [h1, h2, h3, h4, h5]
  have hvis : (m0.setOwnerState o).actionRenameThingHere.visible = true
      ∧ (m0.setOwnerState o).actionDeleteName.visible = false
      ∧ (m0.setOwnerState o).actionEditFunctionVariables.visible = true
      ∧ (m0.setOwnerState o).actionXRefs.visible = true := by
    rcases hreset with h | h <;> rw [h] <;> exact ⟨rfl, rfl, rfl, rfl⟩
  obtain ⟨v1, v2, v3, v4⟩ := hvis
  rw [v1, v2, v3, v4]
  have hann : (m0.setOwnerState o).annotationHere = o.annotationHere := rfl
  simp only [isReference, isFunctionVariable, hann]
  rcases o.annotationHere with _ | item
  · simp
  · simp [r_codemeta_item_is_variable, Option.isSome_iff_ne_none]

theorem aboutToShowSlot_visibility_table_witness :
    (DecompilerContextMenu.new 0x1000 = DecompilerContextMenu.new 0x1000
        ∨ DecompilerContextMenu.new 0x1000 = (DecompilerContextMenu.new 0).aboutToHideSlot)
      ∧ ((((DecompilerContextMenu.new 0x1000).setOwnerState OwnerState.sample).aboutToShowSlot
            Core.sample).actionDeleteName.visible = true
          ↔ ∃ item, OwnerState.sample.annotationHere = some item
              ∧ item.type = R_CODEMETA_TYPE_GLOBAL_VARIABLE
              ∧ Core.sample.r_flag_get_i item.reference.offset ≠ none) :=
  ⟨Or.inl rfl,
    (aboutToShowSlot_visibility_table Core.sample OwnerState.sample (DecompilerContextMenu.new 0)
      (DecompilerContextMenu.new 0x1000) 0x1000 (Or.inl rfl)).2.1⟩

/-! ## The "show target in" entry -/

/-- What `updateTargetMenuActions` leaves in the fields it writes. -/
theorem updateTargetMenuActions_spec (core : Core) (m : DecompilerContextMenu) :
    (m.updateTargetMenuActions core).deleteLaterActions
        = m.deleteLaterActions ++ m.showTargetMenuActions
      ∧ (m.updateTargetMenuActions core).showTargetMenuActions
        = (if m.isReference then [m.heapActions.length] else [])
      ∧ (m.updateTargetMenuActions core).heapActions.length
        = m.heapActions.length + (if m.isReference then 1 else 0)
      ∧ (m.updateTargetMenuActions core).actions
        = (if m.isReference then
            insertAction
              (m.showTargetMenuActions.foldl (fun acc a => removeAction acc (.created a)) m.actions)
              (.fixed .copySeparator) (.created m.heapActions.length)
          else
            m.showTargetMenuActions.foldl (fun acc a => removeAction acc (.created a)) m.actions)
      ∧ (m.updateTargetMenuActions core).annotationHere = m.annotationHere := by
  unfold updateTargetMenuActions isReference createShowInMenu
  rw [foldl_releaseTargetAction]
  rcases h : m.annotationHere with _ | item
  · simp [h]
  · rcases ht : item.type <;> rcases hf : core.r_flag_get_i item.reference.offset
      <;> simp [h, ht, hf, r_codemeta_item_is_reference, insertActions]

/-- The statements of `aboutToShowSlot` in front of `updateTargetMenuActions`
leave alone what the latter reads and writes of the action list. -/
theorem aboutToShowSlot_split (core : Core) (m : DecompilerContextMenu) :
    ∃ m1 : DecompilerContextMenu,
      m.aboutToShowSlot core = (m1.updateTargetMenuActions core).showVariableActions core
        ∧ m1.annotationHere = m.annotationHere
        ∧ m1.actions = m.actions
        ∧ m1.showTargetMenuActions = m.showTargetMenuActions
        ∧ m1.heapActions = m.heapActions
        ∧ m1.deleteLaterActions = m.deleteLaterActions := by
  refine ⟨_, rfl, ?_, ?_, ?_, ?_, ?_⟩ <;>
    simp only [showShowInSubmenu_frame, showReferenceActions_frame, showRenameActions_frame,
      showBreakpointActions_frame, setupBreakpointsInLineMenu_eq, showCommentActions_frame]

/-- The action list, the tracked entries and the released actions after
`aboutToShowSlot`. -/
theorem aboutToShowSlot_target (core : Core) (m : DecompilerContextMenu) :
    (m.aboutToShowSlot core).deleteLaterActions = m.deleteLaterActions ++ m.showTargetMenuActions
      ∧ (m.aboutToShowSlot core).showTargetMenuActions
        = (if m.isReference then [m.heapActions.length] else [])
      ∧ (m.aboutToShowSlot core).heapActions.length
        = m.heapActions.length + (if m.isReference then 1 else 0)
      ∧ (m.aboutToShowSlot core).actions
        = (if m.isReference then
            insertAction
              (m.showTargetMenuActions.foldl (fun acc a => removeAction acc (.created a)) m.actions)
              (.fixed .copySeparator) (.created m.heapActions.length)
          else
            m.showTargetMenuActions.foldl (fun acc a => removeAction acc (.created a)) m.actions)
      ∧ (m.aboutToShowSlot core).annotationHere = m.annotationHere := by
  obtain ⟨m1, h, ha, hl, hs, hh, hd⟩ := aboutToShowSlot_split core m
  obtain ⟨s1, s2, s3, s4, s5⟩ := updateTargetMenuActions_spec core m1
  have hr : m1.isReference = m.isReference := by simp only [isReference, ha]
  rw [h, showVariableActions_frame]
  simp only []
  rw [s1, s2, s3, s4, s5, hr, ha, hl, hs, hh, hd]
  exact ⟨rfl, rfl, rfl, rfl, rfl⟩

theorem mem_foldl_removeAction (l : List Nat) (acts : List ActionPtr) (x : ActionPtr) :
    x ∈ l.foldl (fun acc a => removeAction acc (.created a)) acts
      ↔ x ∈ acts ∧ ∀ p ∈ l, x ≠ .created p := by
  induction l generalizing acts with
  | nil => simp
  | cons a l ih =>
    rw [List.foldl_cons, ih]
    simp only [removeAction, List.mem_filter, bne_iff_ne, ne_eq, List.mem_cons, forall_eq_or_imp]
    tauto

/-- Once the tracked entries are taken out, no created action is left. -/
theorem foldl_removeAction_fixed (m : DecompilerContextMenu) (hinv : m.TargetInv)
    (x : ActionPtr)
    (hx : x ∈ m.showTargetMenuActions.foldl (fun acc a => removeAction acc (.created a)) m.actions) :
    x.isCreated = false := by
  obtain ⟨hmem, hne⟩ := (mem_foldl_removeAction _ _ _).mp hx
  cases x with
  | fixed a => rfl
  | created q => exact absurd rfl (hne q (hinv.1 q hmem))

theorem filter_isCreated_insertAction (acts : List ActionPtr) (before : ActionPtr) (p : Nat)
    (h : ∀ x ∈ acts, x.isCreated = false) :
    (insertAction acts before (.created p)).filter ActionPtr.isCreated = [.created p] := by
  have hnot : ActionPtr.created p ∉ acts := fun hmem => by
    have := h _ hmem
    simp [ActionPtr.isCreated] at this
  unfold insertAction
  simp only [List.erase_of_not_mem hnot, List.filter_append, List.filter_cons,
    ActionPtr.isCreated, if_true]
  have h1 : (acts.take (acts.indexOf before)).filter ActionPtr.isCreated = [] :=
    List.filter_eq_nil_iff.mpr fun x hx => by
      simp [h x (List.mem_of_mem_take hx)]
  have h2 : (acts.drop (acts.indexOf before)).filter ActionPtr.isCreated = [] :=
    List.filter_eq_nil_iff.mpr fun x hx => by
      simp [h x (List.mem_of_mem_drop hx)]
  rw [h1, h2]
  rfl

/-- One opening from a state with sound bookkeeping: the created actions in
the action list, the fate of the older ones, and sound bookkeeping again. -/
theorem aboutToShowSlot_targetInv (core : Core) (m : DecompilerContextMenu)
    (hinv : m.TargetInv) :
    (m.aboutToShowSlot core).actions.filter ActionPtr.isCreated
        = (if m.isReference then [.created m.heapActions.length] else [])
      ∧ (∀ p, p < m.heapActions.length →
          ActionPtr.created p ∉ (m.aboutToShowSlot core).actions
            ∧ p ∈ (m.aboutToShowSlot core).deleteLaterActions)
      ∧ (m.aboutToShowSlot core).TargetInv := by
  obtain ⟨t1, t2, t3, t4, _⟩ := aboutToShowSlot_target core m
  have hfixed := foldl_removeAction_fixed m hinv
  have hfilter : (m.aboutToShowSlot core).actions.filter ActionPtr.isCreated
      = (if m.isReference then [.created m.heapActions.length] else []) := by
    rw [t4]
    cases m.isReference with
    | true => simpa using filter_isCreated_insertAction _ _ _ hfixed
    | false =>
      simp only [Bool.false_eq_true, if_false]
      exact List.filter_eq_nil_iff.mpr fun x hx => by simp [hfixed x hx]
  have hmem : ∀ p, ActionPtr.created p ∈ (m.aboutToShowSlot core).actions →
      m.isReference = true ∧ p = m.heapActions.length := by
    intro p hp
    have hp' : ActionPtr.created p ∈ (m.aboutToShowSlot core).actions.filter ActionPtr.isCreated :=
      List.mem_filter.mpr ⟨hp, rfl⟩
    rw [hfilter] at hp'
    cases hr : m.isReference with
    | true => simpa [hr] using hp'
    | false => simp [hr] at hp'
  refine ⟨hfilter, ?_, ?_, ?_, ?_⟩
  · intro p hp
    refine ⟨fun hmemp => ?_, ?_⟩
    · have := (hmem p hmemp).2
      omega
    · rw [t1]
      rcases hinv.2.2 p hp with h | h
      · exact List.mem_append_right _ h
      · exact List.mem_append_left _ h
  · intro p hp
    obtain ⟨hr, rfl⟩ := hmem p hp
    rw [t2, hr]
    simp
  · intro p hp
    rw [t2] at hp
    rw [t3]
    cases hr : m.isReference with
    | true =>
      simp [hr] at hp
      simp [hr, hp]
    | false => simp [hr] at hp
  · intro p hp
    rw [t3] at hp
    rw [t1, t2]
    by_cases hlt : p < m.heapActions.length
    · right
      rcases hinv.2.2 p hlt with h | h
      · exact List.mem_append_right _ h
      · exact List.mem_append_left _ h
    · left
      cases hr : m.isReference with
      | true =>
        simp [hr] at hp
        simp
        omega
      | false =>
        simp [hr] at hp
        omega

theorem actionEditFunctionVariablesTriggered_fst (core : Core) (m : DecompilerContextMenu) :
    (m.actionEditFunctionVariablesTriggered core).1 = m := by
  unfold actionEditFunctionVariablesTriggered
  rcases h : m.annotationHere with _ | item
  · dsimp only
    repeat' split
    all_goals rfl
  · dsimp only
    repeat' split
    all_goals rfl

theorem actionToggleBreakpointTriggered_fst (m : DecompilerContextMenu) :
    m.actionToggleBreakpointTriggered.1
      = { m with
          availableBreakpoints := m.actionToggleBreakpointTriggered.1.availableBreakpoints
          isTogglingBreakpoints := m.actionToggleBreakpointTriggered.1.isTogglingBreakpoints } := by
  by_cases h : m.availableBreakpoints = []
  · unfold actionToggleBreakpointTriggered
    simp only [h, List.isEmpty_nil, Bool.not_true, Bool.false_eq_true, if_false]
    split <;> rfl
  · rw [actionToggleBreakpointTriggered_of_ne_nil m h]

/-- Every step keeps the bookkeeping sound. -/
theorem step_targetInv (m : DecompilerContextMenu) (st : Step) (hinv : m.TargetInv) :
    (m.step st).TargetInv := by
  cases st with
  | setOwnerState o => exact hinv
  | aboutToShow core => exact (aboutToShowSlot_targetInv core m hinv).2.2
  | aboutToHide => exact hinv
  | renameThingHere core user =>
    simp only [step, actionRenameThingHereTriggered_fst]
    exact hinv
  | editFunctionVariables core =>
    simp only [step, actionEditFunctionVariablesTriggered_fst]
    exact hinv
  | toggleBreakpoint =>
    simp only [step]
    rw [actionToggleBreakpointTriggered_fst]
    exact hinv

theorem run_targetInv (steps : List Step) (m : DecompilerContextMenu) (hinv : m.TargetInv) :
    (m.run steps).TargetInv := by
  induction steps generalizing m with
  | nil => exact hinv
  | cons st steps ih => exact ih _ (step_targetInv m st hinv)

theorem new_targetInv (firstOffset : RVA) : (DecompilerContextMenu.new firstOffset).TargetInv := by
  refine ⟨fun p hp => ?_, fun p hp => ?_, fun p hp => ?_⟩
  · simp [DecompilerContextMenu.new] at hp
  · simp [DecompilerContextMenu.new] at hp
  · simp [DecompilerContextMenu.new] at hp

/-- C6: after any sequence of steps since construction (owner updates,
openings, closings, triggered slots) and any owner state set last, an opening
leaves in the action list exactly one created "show target in" action when
the annotation is a reference and none otherwise; that action is the tracked
one; every action created before this opening (the pointers below the size of
the heap of created actions at that moment) is out of the action list and has
had `deleteLater` called on it. -/
theorem show_target_entry_never_accumulates (steps : List Step) (o : OwnerState) (core : Core)
    (firstOffset : RVA) :
    (((((DecompilerContextMenu.new firstOffset).run steps).setOwnerState o).aboutToShowSlot
          core).actions.filter ActionPtr.isCreated).length
        = (if o.annotationHere.any r_codemeta_item_is_reference then 1 else 0)
      ∧ ((((DecompilerContextMenu.new firstOffset).run steps).setOwnerState o).aboutToShowSlot
          core).actions.filter ActionPtr.isCreated
        = ((((DecompilerContextMenu.new firstOffset).run steps).setOwnerState o).aboutToShowSlot
          core).showTargetMenuActions.map ActionPtr.created
      ∧ ∀ p, p < ((DecompilerContextMenu.new firstOffset).run steps).heapActions.length →
          ActionPtr.created p
              ∉ ((((DecompilerContextMenu.new firstOffset).run steps).setOwnerState
                  o).aboutToShowSlot core).actions
            ∧ p ∈ ((((DecompilerContextMenu.new firstOffset).run steps).setOwnerState
                  o).aboutToShowSlot core).deleteLaterActions := by
  have hinv : (((DecompilerContextMenu.new firstOffset).run steps).setOwnerState o).TargetInv :=
    run_targetInv steps _ (new_targetInv firstOffset)
  obtain ⟨h1, h2, _⟩ := aboutToShowSlot_targetInv core _ hinv
  obtain ⟨_, t2, _, _, _⟩ :=
    aboutToShowSlot_target core (((DecompilerContextMenu.new firstOffset).run steps).setOwnerState o)
  have hr : (((DecompilerContextMenu.new firstOffset).run steps).setOwnerState o).isReference
      = o.annotationHere.any r_codemeta_item_is_reference := by
    unfold isReference
    rw [setOwnerState_eq]
    cases o.annotationHere <;> rfl
  rw [h1, t2, hr]
  refine ⟨?_, ?_, h2⟩
  · cases o.annotationHere.any r_codemeta_item_is_reference <;> rfl
  · cases o.annotationHere.any r_codemeta_item_is_reference <;> rfl

/-! ## Cancelled prompts and stale variables -/

/-- C7: when the user cancels the prompt, the rename slot makes no call that
changes the core (no `createFunctionAt`, `renameFunction`, `renameFlag`,
`addFlag`, `renameFunctionVariable`) and leaves the widget as it was, whatever
the annotation and whatever the core answers. -/
theorem actionRenameThingHereTriggered_cancel (core : Core) (user : User)
    (m : DecompilerContextMenu)
    (hcancel : ∀ title label text, (user.getText title label text).1 = false) :
    (m.actionRenameThingHereTriggered core user).1 = m
      ∧ ∀ e ∈ (m.actionRenameThingHereTriggered core user).2, e.call.isMutation = false := by
  refine ⟨actionRenameThingHereTriggered_fst core user m, ?_⟩
  have hc : ∀ title label text, ∃ name, user.getText title label text = (false, name) :=
    fun title label text =>
      ⟨(user.getText title label text).2, Prod.ext (hcancel title label text) rfl⟩
  unfold actionRenameThingHereTriggered
  rcases h : m.annotationHere with _ | item
  · simp
  · rcases ht : item.type <;> rcases hf : core.r_flag_get_i item.reference.offset <;>
      cases hfn : core.functionAt item.reference.offset <;>
      by_cases hp : ((core.getVariables m.offset).any fun var => var == item.variable_.name)
    all_goals
      first
      | (obtain ⟨name, hn⟩ :=
          hc (tr "Define this function at " ++ core.RAddressString item.reference.offset)
            (tr "Function name:") item.reference.name
         simp [h, ht, hf, hfn, hp, hn, emit, Call.isMutation, isFunctionVariable,
          variablePresentInR2, r_codemeta_item_is_variable]
         done)
      | (obtain ⟨name, hn⟩ :=
          hc (tr "Rename function " ++ item.reference.name) (tr "Function name:")
            item.reference.name
         simp [h, ht, hf, hfn, hp, hn, emit, Call.isMutation, isFunctionVariable,
          variablePresentInR2, r_codemeta_item_is_variable]
         done)
      | (obtain ⟨name, hn⟩ :=
          hc (tr "Add name to " ++ m.curHighlightedWord) (tr "Enter name") m.curHighlightedWord
         simp [h, ht, hf, hfn, hp, hn, emit, Call.isMutation, isFunctionVariable,
          variablePresentInR2, r_codemeta_item_is_variable]
         done)
      | (obtain ⟨name, hn⟩ :=
          hc (tr "Rename " ++ item.variable_.name) (tr "Enter name") item.variable_.name
         simp [h, ht, hf, hfn, hp, hn, emit, Call.isMutation, isFunctionVariable,
          variablePresentInR2, r_codemeta_item_is_variable]
         done)
      | (rename_i flagName
         obtain ⟨name, hn⟩ := hc (tr "Rename " ++ flagName) (tr "Enter name") flagName
         simp [h, ht, hf, hfn, hp, hn, emit, Call.isMutation, isFunctionVariable,
          variablePresentInR2, r_codemeta_item_is_variable])

theorem actionRenameThingHereTriggered_cancel_witness :
    (∀ title label text, (User.cancelling.getText title label text).1 = false)
      ∧ ((DecompilerContextMenu.sampleFunction.actionRenameThingHereTriggered Core.sample
            User.cancelling).1 = DecompilerContextMenu.sampleFunction
          ∧ ∀ e ∈ (DecompilerContextMenu.sampleFunction.actionRenameThingHereTriggered Core.sample
              User.cancelling).2, e.call.isMutation = false) :=
  ⟨fun _ _ _ => rfl,
    actionRenameThingHereTriggered_cancel Core.sample User.cancelling
      DecompilerContextMenu.sampleFunction (fun _ _ _ => rfl)⟩

theorem variablePresentInR2_eq (core : Core) (m : DecompilerContextMenu) (item : RCodeMetaItem)
    (hitem : m.annotationHere = some item) :
    m.variablePresentInR2 core = decide (item.variable_.name ∈ core.getVariables m.offset) := by
  unfold variablePresentInR2
  rw [hitem]
  simp only []
  cases hd : decide (item.variable_.name ∈ core.getVariables m.offset) with
  | true =>
    have hmem := of_decide_eq_true hd
    exact List.any_eq_true.mpr ⟨_, hmem, beq_self_eq_true _⟩
  | false =>
    have hmem := of_decide_eq_false hd
    rw [Bool.eq_false_iff]
    intro hany
    obtain ⟨x, hx, hxe⟩ := List.any_eq_true.mp hany
    rw [beq_iff_eq] at hxe
    exact hmem (hxe ▸ hx)

/-- C8: for a local-variable annotation, when the variable's name is not
among the variables the core reports, the rename slot shows the error dialog
and nothing else (no prompt, no `renameFunctionVariable`) and leaves the widget
as it was, whoever the user; when the name is among them and the user confirms
a non-empty new name, the slot prompts once and then calls exactly
`renameFunctionVariable(newName, oldName, decompiledFunctionAddress)`. -/
theorem actionRenameThingHereTriggered_variable (core : Core) (m : DecompilerContextMenu)
    (item : RCodeMetaItem) (hitem : m.annotationHere = some item)
    (htype : item.type = R_CODEMETA_TYPE_LOCAL_VARIABLE) :
    (item.variable_.name ∉ core.getVariables m.offset →
        ∀ user : User,
          (m.actionRenameThingHereTriggered core user).2.map Event.call
              = [Call.critical ("Rename local variable " ++ item.variable_.name)
                  ("Can't rename this variable. "
                    ++ "Only local variables defined in disassembly can be renamed.")]
            ∧ (m.actionRenameThingHereTriggered core user).1 = m)
      ∧ (item.variable_.name ∈ core.getVariables m.offset →
        ∀ (user : User) (newName : String),
          (∀ title label text, user.getText title label text = (true, newName)) →
          newName ≠ "" →
          (m.actionRenameThingHereTriggered core user).2.map Event.call
            = [Call.getText ("Rename " ++ item.variable_.name) "Enter name" item.variable_.name,
                Call.renameFunctionVariable newName item.variable_.name
                  m.decompiledFunctionAddress]) := by
  have hpres := variablePresentInR2_eq core m item hitem
  constructor
  · intro habs user
    refine ⟨?_, actionRenameThingHereTriggered_fst core user m⟩
    have hp : m.variablePresentInR2 core = false := by
      rw [hpres]
      exact decide_eq_false habs
    unfold actionRenameThingHereTriggered
    simp [hitem, htype, hp, emit, tr, isFunctionVariable, r_codemeta_item_is_variable]
  · intro hin user newName hok hname
    have hE := isEmpty_eq_false_of_ne hname
    have hp : m.variablePresentInR2 core = true := by
      rw [hpres]
      exact decide_eq_true hin
    unfold actionRenameThingHereTriggered
    simp [hitem, htype, hp, hok, hE, emit, tr, isFunctionVariable, r_codemeta_item_is_variable]

theorem actionRenameThingHereTriggered_variable_witness :
    DecompilerContextMenu.sampleVariable.annotationHere
        = some (RCodeMetaItem.sample R_CODEMETA_TYPE_LOCAL_VARIABLE "var_8h" 0)
      ∧ (DecompilerContextMenu.sampleVariable.actionRenameThingHereTriggered Core.blank
            (User.confirming "counter")).2.map Event.call
        = [Call.critical "Rename local variable var_8h"
            "Can't rename this variable. Only local variables defined in disassembly can be renamed."]
      ∧ (DecompilerContextMenu.sampleVariable.actionRenameThingHereTriggered Core.sample
            (User.confirming "counter")).2.map Event.call
        = [Call.getText "Rename var_8h" "Enter name" "var_8h",
            Call.renameFunctionVariable "counter" "var_8h" 0x1000] :=
  ⟨rfl,
    ((actionRenameThingHereTriggered_variable Core.blank DecompilerContextMenu.sampleVariable
      (RCodeMetaItem.sample R_CODEMETA_TYPE_LOCAL_VARIABLE "var_8h" 0) rfl rfl).1
        (by decide) (User.confirming "counter")).1,
    (actionRenameThingHereTriggered_variable Core.sample DecompilerContextMenu.sampleVariable
      (RCodeMetaItem.sample R_CODEMETA_TYPE_LOCAL_VARIABLE "var_8h" 0) rfl rfl).2
        (by decide) (User.confirming "counter") "counter" (fun _ _ _ => rfl) (by decide)⟩

/-! ## What `aboutToShowSlot` recomputes -/

theorem showInPart_visible (m : DecompilerContextMenu) :
    (showInPart m).1.visible = m.actionShowInSubmenu.visible := by
  unfold showInPart showShowInSubmenu createShowInMenu
  rcases h : m.actionShowInSubmenu.menu <;> simp [h, QAction.setMenu]

/-- The properties `aboutToShowSlot` writes on every path, from the owner's
state and the core's answers. -/
theorem aboutToShowSlot_written (core : Core) (m : DecompilerContextMenu) :
    (m.aboutToShowSlot core).actionShowInSubmenu.visible = (m.firstOffsetInLine != RVA_MAX)
      ∧ (m.aboutToShowSlot core).actionAddComment.visible = (m.firstOffsetInLine != RVA_MAX)
      ∧ (m.aboutToShowSlot core).actionDeleteComment.visible
        = (m.firstOffsetInLine != RVA_MAX && !(core.cmdRawAtCC m.firstOffsetInLine).isEmpty)
      ∧ (m.aboutToShowSlot core).debugMenu.visible = core.currentlyDebugging
      ∧ (m.aboutToShowSlot core).actionToggleBreakpoint.text
        = (if m.availableBreakpoints.length == 0 then "Add breakpoint"
          else if m.availableBreakpoints.length == 1 then "Remove breakpoint"
          else "Remove all breakpoints in line")
      ∧ (m.aboutToShowSlot core).actionAdvancedBreakpoint.text
        = (if m.availableBreakpoints.isEmpty then "Advanced breakpoint" else "Edit breakpoint")
      ∧ (m.aboutToShowSlot core).actionAdvancedBreakpoint.menu
        = (if m.availableBreakpoints.length > 1 then some .breakpointsInLineMenu else none)
      ∧ (m.aboutToShowSlot core).actionSetPC.text
        = "Set " ++ core.getRegisterNamePC.toUpper ++ " here"
      ∧ (m.aboutToShowSlot core).copySeparator.visible
        = m.annotationHere.any (fun item => item.type != R_CODEMETA_TYPE_CONSTANT_VARIABLE)
      ∧ (m.aboutToShowSlot core).actionCopyInstructionAddress.text
        = "Copy address (" ++ core.RAddressString m.offset ++ ")"
      ∧ (m.aboutToShowSlot core).breakpointsInLineMenu
        = m.availableBreakpoints.map (fun o => (core.RAddressString o, o)) := by
  unfold aboutToShowSlot
  simp only [showVariableActions_frame, updateTargetMenuActions_frame, showShowInSubmenu_frame,
    showReferenceActions_frame, showRenameActions_frame, showBreakpointActions_frame,
    setupBreakpointsInLineMenu_eq, showCommentActions_frame]
  refine ⟨?_, ?_, ?_, ?_, ?_, ?_, ?_, ?_, ?_, ?_, ?_⟩
  · rw [showInPart_visible]
    by_cases h : m.firstOffsetInLine = RVA_MAX <;>
      by_cases h2 : (core.cmdRawAtCC m.firstOffsetInLine).isEmpty <;>
      simp [commentPart, showCommentActions, h, h2, QAction.setVisible, QAction.setText]
  · by_cases h : m.firstOffsetInLine = RVA_MAX <;>
      by_cases h2 : (core.cmdRawAtCC m.firstOffsetInLine).isEmpty <;>
      simp [commentPart, showCommentActions, h, h2, QAction.setVisible, QAction.setText]
  · by_cases h : m.firstOffsetInLine = RVA_MAX <;>
      by_cases h2 : (core.cmdRawAtCC m.firstOffsetInLine).isEmpty <;>
      simp [commentPart, showCommentActions, h, h2, QAction.setVisible, QAction.setText]
  · simp [QAction.setVisible]
  · rcases h : m.availableBreakpoints with _ | ⟨a, _ | ⟨b, l⟩⟩ <;>
      simp [breakpointPart, showBreakpointActions, h, QAction.setText, QAction.setMenu, tr]
  · rcases h : m.availableBreakpoints with _ | ⟨a, _ | ⟨b, l⟩⟩ <;>
      simp [breakpointPart, showBreakpointActions, h, QAction.setText, QAction.setMenu, tr]
  · rcases h : m.availableBreakpoints with _ | ⟨a, _ | ⟨b, l⟩⟩ <;>
      simp [breakpointPart, showBreakpointActions, h, QAction.setText, QAction.setMenu, tr]
  · simp [QAction.setText, tr]
  · rcases h : m.annotationHere with _ | item
    · simp [renamePart, showRenameActions, h, QAction.setVisible]
    · rcases ht : item.type <;> rcases hf : core.r_flag_get_i item.reference.offset <;>
        simp [renamePart, showRenameActions, h, ht, hf, QAction.setVisible, QAction.setText]
  · simp [QAction.setText, tr]
  · trivial

/-- The enabled state of the two variable actions and the tooltip switch
after `aboutToShowSlot`, from the state before it. -/
theorem aboutToShowSlot_enabled (core : Core) (m : DecompilerContextMenu) :
    (m.aboutToShowSlot core).actionRenameThingHere.enabled
        = (m.actionRenameThingHere.enabled
            && !(m.isFunctionVariable && !m.variablePresentInR2 core))
      ∧ (m.aboutToShowSlot core).actionEditFunctionVariables.enabled
        = (m.actionEditFunctionVariables.enabled
            && !(m.isFunctionVariable && !m.variablePresentInR2 core))
      ∧ (m.aboutToShowSlot core).toolTipsVisible
        = (m.toolTipsVisible || (m.isFunctionVariable && !m.variablePresentInR2 core)) := by
  unfold aboutToShowSlot
  simp only [showVariableActions_frame, updateTargetMenuActions_frame, showShowInSubmenu_frame,
    showReferenceActions_frame, showRenameActions_frame, showBreakpointActions_frame,
    setupBreakpointsInLineMenu_eq, showCommentActions_frame]
  rcases h : m.annotationHere with _ | item
  · simp [variablePart, showVariableActions, renamePart, showRenameActions, isFunctionVariable,
      h, QAction.setText, QAction.setVisible]
  · rcases ht : item.type <;> rcases hf : core.r_flag_get_i item.reference.offset <;>
      by_cases hp : ((core.getVariables m.offset).any fun var => var == item.variable_.name) <;>
      simp [variablePart, showVariableActions, renamePart, showRenameActions,
        isFunctionVariable, variablePresentInR2, r_codemeta_item_is_variable, h, ht, hf, hp,
        QAction.setText, QAction.setVisible, QAction.setDisabled, setToolTipsVisible]

/-- The labels `aboutToShowSlot` writes on some paths only, on those paths. -/
theorem aboutToShowSlot_labels (core : Core) (m : DecompilerContextMenu) :
    (m.firstOffsetInLine ≠ RVA_MAX →
        (m.aboutToShowSlot core).actionAddComment.text
          = (if (core.cmdRawAtCC m.firstOffsetInLine).isEmpty then "Add Comment"
            else "Edit Comment"))
      ∧ (∀ item, m.annotationHere = some item →
          (item.type = R_CODEMETA_TYPE_FUNCTION_NAME →
              (m.aboutToShowSlot core).actionRenameThingHere.text
                  = "Rename function " ++ item.reference.name
                ∧ (m.aboutToShowSlot core).actionCopyReferenceAddress.text
                  = "Copy address of " ++ item.reference.name ++ " ("
                    ++ core.RAddressString item.reference.offset ++ ")")
            ∧ (item.type = R_CODEMETA_TYPE_GLOBAL_VARIABLE →
              (m.aboutToShowSlot core).actionRenameThingHere.text
                = (match core.r_flag_get_i item.reference.offset with
                  | some flagName => "Rename " ++ flagName
                  | none => "Add name to " ++ m.curHighlightedWord))
            ∧ (item.type = R_CODEMETA_TYPE_GLOBAL_VARIABLE
                ∨ item.type = R_CODEMETA_TYPE_CONSTANT_VARIABLE →
              (m.aboutToShowSlot core).actionCopyReferenceAddress.text
                = (match core.r_flag_get_i item.reference.offset with
                  | some flagName =>
                    "Copy address of " ++ flagName ++ " ("
                      ++ core.RAddressString item.reference.offset ++ ")"
                  | none => "Copy address (" ++ core.RAddressString item.reference.offset ++ ")"))
            ∧ (∀ flagName, item.type = R_CODEMETA_TYPE_GLOBAL_VARIABLE →
              core.r_flag_get_i item.reference.offset = some flagName →
              (m.aboutToShowSlot core).actionDeleteName.text = "Remove " ++ flagName)
            ∧ (item.type = R_CODEMETA_TYPE_LOCAL_VARIABLE →
              (m.aboutToShowSlot core).actionRenameThingHere.text
                  = "Rename variable " ++ item.variable_.name
                ∧ (m.aboutToShowSlot core).actionEditFunctionVariables.text
                  = "Edit variable " ++ item.variable_.name)) := by
  unfold aboutToShowSlot
  simp only [showVariableActions_frame, updateTargetMenuActions_frame, showShowInSubmenu_frame,
    showReferenceActions_frame, showRenameActions_frame, showBreakpointActions_frame,
    setupBreakpointsInLineMenu_eq, showCommentActions_frame]
  constructor
  · intro h
    by_cases h2 : (core.cmdRawAtCC m.firstOffsetInLine).isEmpty <;>
      simp [commentPart, showCommentActions, h, h2, QAction.setVisible, QAction.setText, tr]
  · intro item h
    rcases ht : item.type <;> rcases hf : core.r_flag_get_i item.reference.offset <;>
      by_cases hp : ((core.getVariables m.offset).any fun var => var == item.variable_.name) <;>
      simp [variablePart, showVariableActions, renamePart, showRenameActions, referencePart,
        showReferenceActions, isFunctionVariable, isReference, variablePresentInR2,
        r_codemeta_item_is_variable, r_codemeta_item_is_reference, h, ht, hf, hp,
        QAction.setText, QAction.setVisible, QAction.setDisabled, setToolTipsVisible, tr]

/-! ## `aboutToHideSlot` -/

/-- C9, as stated, fails: a menu opened on plain text has X-Refs hidden, and
`aboutToHideSlot` makes it visible, so the visibility of X-Refs after on-close
differs from the one before. -/
theorem aboutToHideSlot_xrefs_counterexample :
    ((DecompilerContextMenu.new 0x1000).openWith OwnerState.plain Core.blank).actionXRefs.visible
        = false
      ∧ ((DecompilerContextMenu.new 0x1000).openWith OwnerState.plain
          Core.blank).aboutToHideSlot.actionXRefs.visible
        ≠ ((DecompilerContextMenu.new 0x1000).openWith OwnerState.plain
          Core.blank).actionXRefs.visible := by
  decide

/-- C9, amended: for every menu state `aboutToHideSlot` makes add-comment,
rename and edit-variable visible, makes rename and edit-variable enabled,
hides delete-name, switches the tooltips off, and resets X-Refs as well: the
X-Refs action is visible after on-close whatever it was before. -/
theorem aboutToHideSlot_resets (m : DecompilerContextMenu) :
    m.aboutToHideSlot.actionAddComment.visible = true
      ∧ m.aboutToHideSlot.actionRenameThingHere.visible = true
      ∧ m.aboutToHideSlot.actionEditFunctionVariables.visible = true
      ∧ m.aboutToHideSlot.actionRenameThingHere.enabled = true
      ∧ m.aboutToHideSlot.actionEditFunctionVariables.enabled = true
      ∧ m.aboutToHideSlot.actionDeleteName.visible = false
      ∧ m.aboutToHideSlot.toolTipsVisible = false
      ∧ m.aboutToHideSlot.actionXRefs.visible = true :=
  ⟨rfl, rfl, rfl, rfl, rfl, rfl, rfl, rfl⟩

/-! ## Dependence of an opening on the state before it -/

/-- C10, as stated, fails: a freshly constructed menu and a menu left open on
the flagged global variable at `0x4010` (an opening not followed by a closing)
are given the same owner state and the same core; after the opening the first
hides delete-name and the second shows it. -/
theorem aboutToShowSlot_prior_state_counterexample :
    ((DecompilerContextMenu.new 0x1000).openWith OwnerState.plain Core.sample).actionDeleteName.visible
      ≠ (((DecompilerContextMenu.new 0x1000).openWith OwnerState.sample Core.sample).openWith
          OwnerState.plain Core.sample).actionDeleteName.visible := by
  decide

/-- C10, amended: with the same owner state and the same core answers, an
opening yields for any two prior states the same visibility of show-in,
add-comment, delete-comment, the debug submenu, the copy separator and
copy-reference-address, the same label of toggle-breakpoint,
advanced-breakpoint, set-PC and copy-instruction-address, the same submenu
attachment of advanced-breakpoint, the same label of add-comment on a line
with a valid first address, of rename under a function-name, global-variable
or local-variable annotation, of copy-reference-address under a reference, of
delete-name under a flagged global variable and of edit-variable under a
local variable; when both prior states were left by `aboutToHideSlot`, it also
yields the same visibility and enabled state of rename and edit-variable, the
same visibility of delete-name and X-Refs and the same tooltip switch. -/
theorem aboutToShowSlot_recomputed (core : Core) (o : OwnerState)
    (m1 m2 : DecompilerContextMenu) :
    ((m1.openWith o core).actionShowInSubmenu.visible
          = (m2.openWith o core).actionShowInSubmenu.visible
        ∧ (m1.openWith o core).actionAddComment.visible
          = (m2.openWith o core).actionAddComment.visible
        ∧ (m1.openWith o core).actionDeleteComment.visible
          = (m2.openWith o core).actionDeleteComment.visible
        ∧ (m1.openWith o core).debugMenu.visible = (m2.openWith o core).debugMenu.visible
        ∧ (m1.openWith o core).copySeparator.visible = (m2.openWith o core).copySeparator.visible
        ∧ (m1.openWith o core).actionCopyReferenceAddress.visible
          = (m2.openWith o core).actionCopyReferenceAddress.visible
        ∧ (m1.openWith o core).actionToggleBreakpoint.text
          = (m2.openWith o core).actionToggleBreakpoint.text
        ∧ (m1.openWith o core).actionAdvancedBreakpoint.text
          = (m2.openWith o core).actionAdvancedBreakpoint.text
        ∧ (m1.openWith o core).actionAdvancedBreakpoint.menu
          = (m2.openWith o core).actionAdvancedBreakpoint.menu
        ∧ (m1.openWith o core).actionSetPC.text = (m2.openWith o core).actionSetPC.text
        ∧ (m1.openWith o core).actionCopyInstructionAddress.text
          = (m2.openWith o core).actionCopyInstructionAddress.text)
      ∧ ((o.firstOffsetInLine ≠ RVA_MAX →
            (m1.openWith o core).actionAddComment.text
              = (m2.openWith o core).actionAddComment.text)
        ∧ (∀ item, o.annotationHere = some item →
            (item.type = R_CODEMETA_TYPE_FUNCTION_NAME
                ∨ item.type = R_CODEMETA_TYPE_GLOBAL_VARIABLE
                ∨ item.type = R_CODEMETA_TYPE_LOCAL_VARIABLE →
              (m1.openWith o core).actionRenameThingHere.text
                = (m2.openWith o core).actionRenameThingHere.text)
            ∧ (r_codemeta_item_is_reference item = true →
              (m1.openWith o core).actionCopyReferenceAddress.text
                = (m2.openWith o core).actionCopyReferenceAddress.text)
            ∧ (item.type = R_CODEMETA_TYPE_GLOBAL_VARIABLE →
              core.r_flag_get_i item.reference.offset ≠ none →
              (m1.openWith o core).actionDeleteName.text
                = (m2.openWith o core).actionDeleteName.text)
            ∧ (item.type = R_CODEMETA_TYPE_LOCAL_VARIABLE →
              (m1.openWith o core).actionEditFunctionVariables.text
                = (m2.openWith o core).actionEditFunctionVariables.text)))
      ∧ ((m1.aboutToHideSlot.openWith o core).actionRenameThingHere.visible
          = (m2.aboutToHideSlot.openWith o core).actionRenameThingHere.visible
        ∧ (m1.aboutToHideSlot.openWith o core).actionRenameThingHere.enabled
          = (m2.aboutToHideSlot.openWith o core).actionRenameThingHere.enabled
        ∧ (m1.aboutToHideSlot.openWith o core).actionEditFunctionVariables.visible
          = (m2.aboutToHideSlot.openWith o core).actionEditFunctionVariables.visible
        ∧ (m1.aboutToHideSlot.openWith o core).actionEditFunctionVariables.enabled
          = (m2.aboutToHideSlot.openWith o core).actionEditFunctionVariables.enabled
        ∧ (m1.aboutToHideSlot.openWith o core).actionDeleteName.visible
          = (m2.aboutToHideSlot.openWith o core).actionDeleteName.visible
        ∧ (m1.aboutToHideSlot.openWith o core).actionXRefs.visible
          = (m2.aboutToHideSlot.openWith o core).actionXRefs.visible
        ∧ (m1.aboutToHideSlot.openWith o core).toolTipsVisible
          = (m2.aboutToHideSlot.openWith o core).toolTipsVisible) := by
  refine ⟨?_, ?_, ?_⟩
  · obtain ⟨a1, a2, a3, a4, a5, a6, a7, a8, a9, a10, _⟩ :=
      aboutToShowSlot_written core (m1.setOwnerState o)
    obtain ⟨b1, b2, b3, b4, b5, b6, b7, b8, b9, b10, _⟩ :=
      aboutToShowSlot_written core (m2.setOwnerState o)
    obtain ⟨_, _, _, _, c5⟩ := aboutToShowSlot_visible core (m1.setOwnerState o)
    obtain ⟨_, _, _, _, d5⟩ := aboutToShowSlot_visible core (m2.setOwnerState o)
    exact ⟨a1.trans b1.symm, a2.trans b2.symm, a3.trans b3.symm, a4.trans b4.symm,
      a9.trans b9.symm, c5.trans d5.symm, a5.trans b5.symm, a6.trans b6.symm, a7.trans b7.symm,
      a8.trans b8.symm, a10.trans b10.symm⟩
  · obtain ⟨a1, a2⟩ := aboutToShowSlot_labels core (m1.setOwnerState o)
    obtain ⟨b1, b2⟩ := aboutToShowSlot_labels core (m2.setOwnerState o)
    refine ⟨fun h => (a1 h).trans (b1 h).symm, fun item hitem => ?_⟩
    obtain ⟨af, ag, ar, ad, al⟩ := a2 item hitem
    obtain ⟨bf, bg, br, bd, bl⟩ := b2 item hitem
    refine ⟨?_, ?_, ?_, ?_⟩
    · rintro (h | h | h)
      · exact (af h).1.trans (bf h).1.symm
      · exact (ag h).trans (bg h).symm
      · exact (al h).1.trans (bl h).1.symm
    · intro h
      have ht : item.type = R_CODEMETA_TYPE_FUNCTION_NAME
          ∨ (item.type = R_CODEMETA_TYPE_GLOBAL_VARIABLE
            ∨ item.type = R_CODEMETA_TYPE_CONSTANT_VARIABLE) := by
        cases hty : item.type <;> simp [r_codemeta_item_is_reference, hty] at h ⊢
      rcases ht with h | h
      · exact (af h).2.trans (bf h).2.symm
      · exact (ar h).trans (br h).symm
    · intro h hflag
      obtain ⟨flagName, hf⟩ := Option.ne_none_iff_exists'.mp hflag
      exact (ad flagName h hf).trans (bd flagName h hf).symm
    · intro h
      exact (al h).2.trans (bl h).2.symm
  · obtain ⟨a1, a2, a3, a4, _⟩ := aboutToShowSlot_visible core (m1.aboutToHideSlot.setOwnerState o)
    obtain ⟨b1, b2, b3, b4, _⟩ := aboutToShowSlot_visible core (m2.aboutToHideSlot.setOwnerState o)
    obtain ⟨c1, c2, c3⟩ := aboutToShowSlot_enabled core (m1.aboutToHideSlot.setOwnerState o)
    obtain ⟨d1, d2, d3⟩ := aboutToShowSlot_enabled core (m2.aboutToHideSlot.setOwnerState o)
    exact ⟨a1.trans b1.symm, c1.trans d1.symm, a3.trans b3.symm, c2.trans d2.symm,
      a2.trans b2.symm, a4.trans b4.symm, c3.trans d3.symm⟩

/-! ## The edit-variable slot -/

/-- C11, as stated, fails: with the cursor on the local variable `var_8h` and
a core that reports no variable, the edit-variable slot is not silent; it
shows the error dialog. -/
theorem actionEditFunctionVariablesTriggered_absent_counterexample :
    (DecompilerContextMenu.sampleVariable.actionEditFunctionVariablesTriggered
          Core.blank).2.map Event.call
        = [Call.critical "Edit local variable var_8h"
            "Can't edit this variable. Only local variables defined in disassembly can be edited."]
      ∧ (DecompilerContextMenu.sampleVariable.actionEditFunctionVariablesTriggered Core.blank).2
        ≠ [] := by
  decide

/-- C11, amended: the edit-variable slot opens the variable-edit dialog, for
the annotation's variable name within `decompiledFunctionAddress`, exactly
when the annotation is a local variable whose name is among the variables the
core reports; without an annotation and under an annotation that is not a
variable it makes no call at all; for a variable whose name is not among them
it shows the error dialog and opens no variable-edit dialog; it never writes a
member of the widget. -/
theorem actionEditFunctionVariablesTriggered_cases (core : Core) (m : DecompilerContextMenu) :
    (m.actionEditFunctionVariablesTriggered core).1 = m
      ∧ (m.annotationHere = none → (m.actionEditFunctionVariablesTriggered core).2 = [])
      ∧ ∀ item, m.annotationHere = some item →
          (item.type ≠ R_CODEMETA_TYPE_LOCAL_VARIABLE →
              (m.actionEditFunctionVariablesTriggered core).2 = [])
            ∧ (item.type = R_CODEMETA_TYPE_LOCAL_VARIABLE →
              item.variable_.name ∉ core.getVariables m.offset →
              (m.actionEditFunctionVariablesTriggered core).2.map Event.call
                = [Call.critical ("Edit local variable " ++ item.variable_.name)
                    ("Can't edit this variable. Only local variables defined in "
                      ++ "disassembly can be edited.")])
            ∧ (item.type = R_CODEMETA_TYPE_LOCAL_VARIABLE →
              item.variable_.name ∈ core.getVariables m.offset →
              (m.actionEditFunctionVariablesTriggered core).2.map Event.call
                = [Call.editVariablesDialog m.decompiledFunctionAddress item.variable_.name]) := by
  refine ⟨actionEditFunctionVariablesTriggered_fst core m, fun h => ?_, fun item hitem => ?_⟩
  · unfold actionEditFunctionVariablesTriggered
    simp [isFunctionVariable, h]
  · have hpres := variablePresentInR2_eq core m item hitem
    refine ⟨fun ht => ?_, fun ht habs => ?_, fun ht hin => ?_⟩
    · unfold actionEditFunctionVariablesTriggered
      simp [isFunctionVariable, r_codemeta_item_is_variable, hitem, ht]
    · have hp : m.variablePresentInR2 core = false := by
        rw [hpres]
        exact decide_eq_false habs
      unfold actionEditFunctionVariablesTriggered
      simp [isFunctionVariable, r_codemeta_item_is_variable, hitem, ht, hp, emit, tr]
    · have hp : m.variablePresentInR2 core = true := by
        rw [hpres]
        exact decide_eq_true hin
      unfold actionEditFunctionVariablesTriggered
      simp [isFunctionVariable, r_codemeta_item_is_variable, hitem, ht, hp, emit]

/-! ## The toggle-breakpoint slot on a line without breakpoints -/

/-- C13, as stated, fails: on a line without breakpoints whose first address
is the sentinel `RVA_MAX`, the toggle slot calls nothing. -/
theorem actionToggleBreakpointTriggered_sentinel_counterexample :
    (DecompilerContextMenu.new RVA_MAX).availableBreakpoints = []
      ∧ (DecompilerContextMenu.new RVA_MAX).actionToggleBreakpointTriggered.2 = []
      ∧ (DecompilerContextMenu.new RVA_MAX).actionToggleBreakpointTriggered.2.map Event.call
        ≠ [Call.toggleBreakpoint (DecompilerContextMenu.new RVA_MAX).firstOffsetInLine] := by
  decide

/-- C13, amended: with no tracked breakpoint, the toggle slot makes exactly
one call, `toggleBreakpoint(firstOffsetInLine)`, for every value of
`firstOffsetInLine` other than the sentinel `RVA_MAX`, and no call for the
sentinel; either way it changes neither the tracked list nor
`isTogglingBreakpoints`, nor any other member. -/
theorem actionToggleBreakpointTriggered_adds_one (m : DecompilerContextMenu)
    (hempty : m.availableBreakpoints = []) :
    m.actionToggleBreakpointTriggered.2.map Event.call
        = (if m.firstOffsetInLine = RVA_MAX then []
          else [Call.toggleBreakpoint m.firstOffsetInLine])
      ∧ m.actionToggleBreakpointTriggered.1.availableBreakpoints = m.availableBreakpoints
      ∧ m.actionToggleBreakpointTriggered.1.getIsTogglingBreakpoints
        = m.getIsTogglingBreakpoints
      ∧ m.actionToggleBreakpointTriggered.1 = m := by
  unfold actionToggleBreakpointTriggered
  by_cases h : m.firstOffsetInLine = RVA_MAX <;> simp [hempty, h, emit]

theorem actionToggleBreakpointTriggered_adds_one_witness :
    (DecompilerContextMenu.new 0x1000).availableBreakpoints = []
      ∧ (DecompilerContextMenu.new 0x1000).actionToggleBreakpointTriggered.2.map Event.call
        = [Call.toggleBreakpoint 0x1000] :=
  ⟨rfl, (actionToggleBreakpointTriggered_adds_one (DecompilerContextMenu.new 0x1000) rfl).1⟩

end DecompilerContextMenu

namespace DecompilerContextMenu

/-! ## `aboutToShowSlot` run twice -/

/-- `aboutToShowSlot` writes nothing of what the owner sets. -/
theorem aboutToShowSlot_owner (core : Core) (m : DecompilerContextMenu) :
    (m.aboutToShowSlot core).annotationHere = m.annotationHere
      ∧ (m.aboutToShowSlot core).curHighlightedWord = m.curHighlightedWord
      ∧ (m.aboutToShowSlot core).offset = m.offset
      ∧ (m.aboutToShowSlot core).decompiledFunctionAddress = m.decompiledFunctionAddress
      ∧ (m.aboutToShowSlot core).firstOffsetInLine = m.firstOffsetInLine
      ∧ (m.aboutToShowSlot core).availableBreakpoints = m.availableBreakpoints := by
  unfold aboutToShowSlot
  simp only [showVariableActions_frame, updateTargetMenuActions_frame, showShowInSubmenu_frame,
    showReferenceActions_frame, showRenameActions_frame, showBreakpointActions_frame,
    setupBreakpointsInLineMenu_eq, showCommentActions_frame, and_self]

theorem commentPart_kept (core : Core) (m : DecompilerContextMenu) :
    (commentPart core m).1.enabled = m.actionShowInSubmenu.enabled
      ∧ (commentPart core m).1.text = m.actionShowInSubmenu.text
      ∧ (commentPart core m).2.1.enabled = m.actionAddComment.enabled
      ∧ (commentPart core m).2.2.enabled = m.actionDeleteComment.enabled
      ∧ (commentPart core m).2.2.text = m.actionDeleteComment.text := by
  unfold commentPart showCommentActions
  by_cases h : m.firstOffsetInLine = RVA_MAX <;>
    by_cases h2 : (core.cmdRawAtCC m.firstOffsetInLine).isEmpty <;>
    simp [h, h2, QAction.setVisible, QAction.setText]

theorem breakpointPart_kept (m : DecompilerContextMenu) :
    (breakpointPart m).1.visible = m.actionToggleBreakpoint.visible
      ∧ (breakpointPart m).1.enabled = m.actionToggleBreakpoint.enabled
      ∧ (breakpointPart m).2.visible = m.actionAdvancedBreakpoint.visible
      ∧ (breakpointPart m).2.enabled = m.actionAdvancedBreakpoint.enabled := by
  unfold breakpointPart showBreakpointActions
  rcases h : m.availableBreakpoints with _ | ⟨a, _ | ⟨b, l⟩⟩ <;>
    simp [h, QAction.setText, QAction.setMenu]

theorem renamePart_kept (core : Core) (m : DecompilerContextMenu) :
    (renamePart core m).1.enabled = m.actionRenameThingHere.enabled
      ∧ (renamePart core m).2.1.enabled = m.copySeparator.enabled
      ∧ (renamePart core m).2.1.text = m.copySeparator.text
      ∧ (renamePart core m).2.2.enabled = m.actionDeleteName.enabled := by
  unfold renamePart showRenameActions
  rcases h : m.annotationHere with _ | item
  · simp [h, QAction.setVisible]
  · rcases ht : item.type <;> rcases hf : core.r_flag_get_i item.reference.offset <;>
      simp [h, ht, hf, QAction.setVisible, QAction.setText]

theorem referencePart_kept (core : Core) (m : DecompilerContextMenu) :
    (referencePart core m).1.enabled = m.actionCopyReferenceAddress.enabled
      ∧ (referencePart core m).2.enabled = m.actionXRefs.enabled
      ∧ (referencePart core m).2.text = m.actionXRefs.text := by
  unfold referencePart showReferenceActions isReference
  rcases h : m.annotationHere with _ | item
  · simp [h, QAction.setVisible]
  · rcases ht : item.type <;> rcases hf : core.r_flag_get_i item.reference.offset <;>
      simp [h, ht, hf, r_codemeta_item_is_reference, QAction.setVisible, QAction.setText]

theorem showInPart_kept (m : DecompilerContextMenu) :
    (showInPart m).1.enabled = m.actionShowInSubmenu.enabled
      ∧ (showInPart m).1.text = m.actionShowInSubmenu.text := by
  unfold showInPart showShowInSubmenu createShowInMenu
  rcases h : m.actionShowInSubmenu.menu <;> simp [h, QAction.setMenu]

/-- The properties of the actions that `aboutToShowSlot` never writes. -/
theorem aboutToShowSlot_kept (core : Core) (m : DecompilerContextMenu) :
    ((m.aboutToShowSlot core).actionCopy = m.actionCopy
        ∧ (m.aboutToShowSlot core).actionEditAnnotationItem = m.actionEditAnnotationItem
        ∧ (m.aboutToShowSlot core).actionContinueUntil = m.actionContinueUntil
        ∧ (m.aboutToShowSlot core).breakpointMenu = m.breakpointMenu)
      ∧ ((m.aboutToShowSlot core).actionCopyInstructionAddress.visible
            = m.actionCopyInstructionAddress.visible
        ∧ (m.aboutToShowSlot core).actionToggleBreakpoint.visible
            = m.actionToggleBreakpoint.visible
        ∧ (m.aboutToShowSlot core).actionAdvancedBreakpoint.visible
            = m.actionAdvancedBreakpoint.visible
        ∧ (m.aboutToShowSlot core).actionSetPC.visible = m.actionSetPC.visible)
      ∧ ((m.aboutToShowSlot core).actionCopyInstructionAddress.enabled
            = m.actionCopyInstructionAddress.enabled
        ∧ (m.aboutToShowSlot core).actionCopyReferenceAddress.enabled
            = m.actionCopyReferenceAddress.enabled
        ∧ (m.aboutToShowSlot core).actionShowInSubmenu.enabled = m.actionShowInSubmenu.enabled
        ∧ (m.aboutToShowSlot core).actionAddComment.enabled = m.actionAddComment.enabled
        ∧ (m.aboutToShowSlot core).actionDeleteComment.enabled = m.actionDeleteComment.enabled
        ∧ (m.aboutToShowSlot core).actionDeleteName.enabled = m.actionDeleteName.enabled
        ∧ (m.aboutToShowSlot core).actionXRefs.enabled = m.actionXRefs.enabled
        ∧ (m.aboutToShowSlot core).actionToggleBreakpoint.enabled
            = m.actionToggleBreakpoint.enabled
        ∧ (m.aboutToShowSlot core).actionAdvancedBreakpoint.enabled
            = m.actionAdvancedBreakpoint.enabled
        ∧ (m.aboutToShowSlot core).actionSetPC.enabled = m.actionSetPC.enabled
        ∧ (m.aboutToShowSlot core).copySeparator.enabled = m.copySeparator.enabled
        ∧ (m.aboutToShowSlot core).debugMenu.enabled = m.debugMenu.enabled)
      ∧ ((m.aboutToShowSlot core).actionShowInSubmenu.text = m.actionShowInSubmenu.text
        ∧ (m.aboutToShowSlot core).actionDeleteComment.text = m.actionDeleteComment.text
        ∧ (m.aboutToShowSlot core).actionXRefs.text = m.actionXRefs.text
        ∧ (m.aboutToShowSlot core).copySeparator.text = m.copySeparator.text
        ∧ (m.aboutToShowSlot core).debugMenu.text = m.debugMenu.text) := by
  unfold aboutToShowSlot
  simp only [showVariableActions_frame, updateTargetMenuActions_frame, showShowInSubmenu_frame,
    showReferenceActions_frame, showRenameActions_frame, showBreakpointActions_frame,
    setupBreakpointsInLineMenu_eq, showCommentActions_frame]
  simp only [showInPart_kept, referencePart_kept, renamePart_kept, breakpointPart_kept,
    commentPart_kept, QAction.setText, QAction.setVisible, and_self]

/-- The labels `aboutToShowSlot` writes on some paths only, on the other
paths. -/
theorem aboutToShowSlot_kept_labels (core : Core) (m : DecompilerContextMenu) :
    (m.firstOffsetInLine = RVA_MAX →
        (m.aboutToShowSlot core).actionAddComment.text = m.actionAddComment.text)
      ∧ (m.annotationHere = none →
        (m.aboutToShowSlot core).actionRenameThingHere.text = m.actionRenameThingHere.text
          ∧ (m.aboutToShowSlot core).actionDeleteName.text = m.actionDeleteName.text
          ∧ (m.aboutToShowSlot core).actionCopyReferenceAddress.text
            = m.actionCopyReferenceAddress.text
          ∧ (m.aboutToShowSlot core).actionEditFunctionVariables.text
            = m.actionEditFunctionVariables.text)
      ∧ (∀ item, m.annotationHere = some item →
          (item.type = R_CODEMETA_TYPE_CONSTANT_VARIABLE ∨ item.type = R_CODEMETA_TYPE_OTHER →
              (m.aboutToShowSlot core).actionRenameThingHere.text = m.actionRenameThingHere.text)
            ∧ (item.type ≠ R_CODEMETA_TYPE_GLOBAL_VARIABLE
                ∨ core.r_flag_get_i item.reference.offset = none →
              (m.aboutToShowSlot core).actionDeleteName.text = m.actionDeleteName.text)
            ∧ (r_codemeta_item_is_reference item = false →
              (m.aboutToShowSlot core).actionCopyReferenceAddress.text
                = m.actionCopyReferenceAddress.text)
            ∧ (item.type ≠ R_CODEMETA_TYPE_LOCAL_VARIABLE →
              (m.aboutToShowSlot core).actionEditFunctionVariables.text
                = m.actionEditFunctionVariables.text)) := by
  unfold aboutToShowSlot
  simp only [showVariableActions_frame, updateTargetMenuActions_frame, showShowInSubmenu_frame,
    showReferenceActions_frame, showRenameActions_frame, showBreakpointActions_frame,
    setupBreakpointsInLineMenu_eq, showCommentActions_frame]
  refine ⟨fun h => ?_, fun h => ?_, fun item h => ?_⟩
  · simp [commentPart, showCommentActions, h, QAction.setVisible]
  · simp [variablePart, showVariableActions, renamePart, showRenameActions, referencePart,
      showReferenceActions, isFunctionVariable, isReference, h, QAction.setText,
      QAction.setVisible]
  · rcases ht : item.type <;> rcases hf : core.r_flag_get_i item.reference.offset <;>
      by_cases hp : ((core.getVariables m.offset).any fun var => var == item.variable_.name) <;>
      simp [variablePart, showVariableActions, renamePart, showRenameActions, referencePart,
        showReferenceActions, isFunctionVariable, isReference, variablePresentInR2,
        r_codemeta_item_is_variable, r_codemeta_item_is_reference, h, ht, hf, hp,
        QAction.setText, QAction.setVisible, QAction.setDisabled, setToolTipsVisible]

/-- What `aboutToShowSlot` branches on is the same after it. -/
theorem aboutToShowSlot_conds (core : Core) (m : DecompilerContextMenu) :
    (m.aboutToShowSlot core).isReference = m.isReference
      ∧ (m.aboutToShowSlot core).isFunctionVariable = m.isFunctionVariable
      ∧ (m.aboutToShowSlot core).variablePresentInR2 core = m.variablePresentInR2 core := by
  obtain ⟨h1, _, h3, _, _, _⟩ := aboutToShowSlot_owner core m
  simp only [isReference, isFunctionVariable, variablePresentInR2, h1, h3, and_self]

/-- A second `aboutToShowSlot` leaves the five path-dependent labels as the
first one left them. -/
theorem aboutToShowSlot_text_idempotent (core : Core) (m : DecompilerContextMenu) :
    ((m.aboutToShowSlot core).aboutToShowSlot core).actionAddComment.text
        = (m.aboutToShowSlot core).actionAddComment.text
      ∧ ((m.aboutToShowSlot core).aboutToShowSlot core).actionRenameThingHere.text
        = (m.aboutToShowSlot core).actionRenameThingHere.text
      ∧ ((m.aboutToShowSlot core).aboutToShowSlot core).actionDeleteName.text
        = (m.aboutToShowSlot core).actionDeleteName.text
      ∧ ((m.aboutToShowSlot core).aboutToShowSlot core).actionCopyReferenceAddress.text
        = (m.aboutToShowSlot core).actionCopyReferenceAddress.text
      ∧ ((m.aboutToShowSlot core).aboutToShowSlot core).actionEditFunctionVariables.text
        = (m.aboutToShowSlot core).actionEditFunctionVariables.text := by
  obtain ⟨oa, ow, _, _, ofst, _⟩ := aboutToShowSlot_owner core m
  obtain ⟨l1, l2⟩ := aboutToShowSlot_labels core m
  obtain ⟨L1, L2⟩ := aboutToShowSlot_labels core (m.aboutToShowSlot core)
  obtain ⟨K1, K2, K3⟩ := aboutToShowSlot_kept_labels core (m.aboutToShowSlot core)
  rw [ofst] at L1 K1
  rw [oa] at K2 K3 L2
  rw [ow] at L2
  refine ⟨?_, ?_⟩
  · by_cases h : m.firstOffsetInLine = RVA_MAX
    · exact K1 h
    · exact (L1 h).trans (l1 h).symm
  · rcases h : m.annotationHere with _ | item
    · obtain ⟨a, b, c, d⟩ := K2 h
      exact ⟨a, b, c, d⟩
    · obtain ⟨kr, kd, kc, ke⟩ := K3 item h
      obtain ⟨af, ag, ar, ad, al⟩ := l2 item h
      obtain ⟨bf, bg, br, bd, bl⟩ := L2 item h
      rcases ht : item.type
      · exact ⟨(bf ht).1.trans (af ht).1.symm, kd (Or.inl (by simp [ht])),
          (bf ht).2.trans (af ht).2.symm, ke (by simp [ht])⟩
      · refine ⟨(bg ht).trans (ag ht).symm, ?_, (br (Or.inl ht)).trans (ar (Or.inl ht)).symm,
          ke (by simp [ht])⟩
        rcases hf : core.r_flag_get_i item.reference.offset with _ | flagName
        · exact kd (Or.inr hf)
        · exact (bd flagName ht hf).trans (ad flagName ht hf).symm
      · exact ⟨kr (Or.inl ht), kd (Or.inl (by simp [ht])),
          (br (Or.inr ht)).trans (ar (Or.inr ht)).symm, ke (by simp [ht])⟩
      · exact ⟨(bl ht).1.trans (al ht).1.symm, kd (Or.inl (by simp [ht])),
          kc (by simp [r_codemeta_item_is_reference, ht]), (bl ht).2.trans (al ht).2.symm⟩
      · exact ⟨kr (Or.inr ht), kd (Or.inl (by simp [ht])),
          kc (by simp [r_codemeta_item_is_reference, ht]), ke (by simp [ht])⟩

/-- A second `aboutToShowSlot` leaves what the user sees of every action as
the first one left it. -/
theorem aboutToShowSlot_look_idempotent (core : Core) (m : DecompilerContextMenu) :
    ((m.aboutToShowSlot core).aboutToShowSlot core).allActions.map QAction.look
      = (m.aboutToShowSlot core).allActions.map QAction.look := by
  obtain ⟨oa, -, oo, -, ofst, ob⟩ := aboutToShowSlot_owner core m
  obtain ⟨cr, cv, cp⟩ := aboutToShowSlot_conds core m
  obtain ⟨w1, w2, w3, w4, w5, w6, -, w8, w9, w10, -⟩ := aboutToShowSlot_written core m
  obtain ⟨v1, v2, v3, v4, v5⟩ := aboutToShowSlot_visible core m
  obtain ⟨e1, e2, -⟩ := aboutToShowSlot_enabled core m
  obtain ⟨W1, W2, W3, W4, W5, W6, -, W8, W9, W10, -⟩ :=
    aboutToShowSlot_written core (m.aboutToShowSlot core)
  obtain ⟨V1, V2, V3, V4, V5⟩ := aboutToShowSlot_visible core (m.aboutToShowSlot core)
  obtain ⟨E1, E2, -⟩ := aboutToShowSlot_enabled core (m.aboutToShowSlot core)
  obtain ⟨⟨k1, k2, k3, k4⟩, ⟨kv1, kv2, kv3, kv4⟩,
      ⟨ke1, ke2, ke3, ke4, ke5, ke6, ke7, ke8, ke9, ke10, ke11, ke12⟩,
      ⟨kt1, kt2, kt3, kt4, kt5⟩⟩ := aboutToShowSlot_kept core (m.aboutToShowSlot core)
  obtain ⟨t1, t2, t3, t4, t5⟩ := aboutToShowSlot_text_idempotent core m
  rw [ofst] at W1 W2 W3
  rw [ob] at W5 W6
  rw [oa] at W9 V1 V2
  rw [oo] at W10
  rw [cr] at V4 V5
  rw [cv] at V3 E1 E2
  rw [cp] at E1 E2
  have hv1 : ((m.aboutToShowSlot core).aboutToShowSlot core).actionRenameThingHere.visible
      = (m.aboutToShowSlot core).actionRenameThingHere.visible := by
    rw [V1, v1, Bool.and_self_left]
  have hv2 : ((m.aboutToShowSlot core).aboutToShowSlot core).actionDeleteName.visible
      = (m.aboutToShowSlot core).actionDeleteName.visible := by
    rw [V2, v2, Bool.or_self_left]
  have hv3 : ((m.aboutToShowSlot core).aboutToShowSlot core).actionEditFunctionVariables.visible
      = (m.aboutToShowSlot core).actionEditFunctionVariables.visible := by
    rw [V3, v3, Bool.and_self_left]
  have hv4 : ((m.aboutToShowSlot core).aboutToShowSlot core).actionXRefs.visible
      = (m.aboutToShowSlot core).actionXRefs.visible := by
    rw [V4, v4, Bool.and_self_left]
  have he1 : ((m.aboutToShowSlot core).aboutToShowSlot core).actionRenameThingHere.enabled
      = (m.aboutToShowSlot core).actionRenameThingHere.enabled := by
    rw [E1, e1, Bool.and_assoc, Bool.and_self]
  have he2 : ((m.aboutToShowSlot core).aboutToShowSlot core).actionEditFunctionVariables.enabled
      = (m.aboutToShowSlot core).actionEditFunctionVariables.enabled := by
    rw [E2, e2, Bool.and_assoc, Bool.and_self]
  simp only [allActions, List.map, QAction.look]
  rw [k1, k2, k3, k4, kv1, kv2, kv3, kv4, ke1, ke2, ke3, ke4, ke5, ke6, ke7, ke8, ke9, ke10, ke11,
    ke12, kt1, kt2, kt3, kt4, kt5, t1, t2, t3, t4, t5, hv1, hv2, hv3, hv4, he1, he2,
    W1.trans w1.symm, W2.trans w2.symm, W3.trans w3.symm, W4.trans w4.symm, W5.trans w5.symm,
    W6.trans w6.symm, W8.trans w8.symm, W9.trans w9.symm, W10.trans w10.symm, V5.trans v5.symm]

/-- C12: for every menu state and fixed core answers, `aboutToShowSlot` run
twice in a row leaves the visibility, enabled state and label of every action,
the entries of the per-line breakpoint submenu and the number of tracked
"show target in" actions as one run leaves them; in every state the widget
reaches from its construction, the number of created "show target in" actions
in the menu's action list is the same after two runs as after one. -/
theorem aboutToShowSlot_twice (core : Core) (m : DecompilerContextMenu) (steps : List Step)
    (firstOffset : RVA) :
    ((m.aboutToShowSlot core).aboutToShowSlot core).allActions.map QAction.look
        = (m.aboutToShowSlot core).allActions.map QAction.look
      ∧ ((m.aboutToShowSlot core).aboutToShowSlot core).breakpointsInLineMenu
        = (m.aboutToShowSlot core).breakpointsInLineMenu
      ∧ ((m.aboutToShowSlot core).aboutToShowSlot core).showTargetMenuActions.length
        = (m.aboutToShowSlot core).showTargetMenuActions.length
      ∧ (((((DecompilerContextMenu.new firstOffset).run steps).aboutToShowSlot
            core).aboutToShowSlot core).actions.filter ActionPtr.isCreated).length
        = ((((DecompilerContextMenu.new firstOffset).run steps).aboutToShowSlot
            core).actions.filter ActionPtr.isCreated).length := by
  refine ⟨aboutToShowSlot_look_idempotent core m, ?_, ?_, ?_⟩
  · obtain ⟨_, _, _, _, _, ob⟩ := aboutToShowSlot_owner core m
    rw [(aboutToShowSlot_written core (m.aboutToShowSlot core)).2.2.2.2.2.2.2.2.2.2,
      (aboutToShowSlot_written core m).2.2.2.2.2.2.2.2.2.2, ob]
  · obtain ⟨cr, _, _⟩ := aboutToShowSlot_conds core m
    rw [(aboutToShowSlot_target core (m.aboutToShowSlot core)).2.1,
      (aboutToShowSlot_target core m).2.1, cr]
    cases m.isReference <;> rfl
  · have hinv : ((DecompilerContextMenu.new firstOffset).run steps).TargetInv :=
      run_targetInv steps _ (new_targetInv firstOffset)
    obtain ⟨c1, _, hinv1⟩ := aboutToShowSlot_targetInv core _ hinv
    obtain ⟨c2, _, _⟩ := aboutToShowSlot_targetInv core _ hinv1
    obtain ⟨cr, _, _⟩ :=
      aboutToShowSlot_conds core ((DecompilerContextMenu.new firstOffset).run steps)
    rw [c2, c1, cr]
    cases ((DecompilerContextMenu.new firstOffset).run steps).isReference <;> rfl

end DecompilerContextMenu
